import Mathlib

/-!
Verification of the CRS grammar and coordinate-converter dispatcher of pyfite
(`pyfite/crs.py`), embedded shallowly in Lean 4.

Numeric model: Python floats are modelled by exact rationals (`ℚ`).  String
parsing via `re.match` is modelled by deterministic maximal-munch lexers that
implement the exact regular expressions of the source; the determinism of the
greedy match for these particular patterns is argued in doc comments at each
definition.  The external geodesy libraries (`pyproj`, `pymap3d`) are out of
scope for the spec and are modelled by an abstract `Engine` of pointwise
transforms; the converter code composes their vectorized calls column-wise,
which is embedded as row-wise maps.
-/

/-! ## Character and token utilities -/

/-- A word character as matched by the regex class used in the UTM pattern
(ASCII letters, digits, underscore; the pattern in the source is Unicode-aware but
only the ASCII fragment is relevant to the strings the grammar is meant for). -/
def isWordChar (c : Char) : Bool := c.isAlphanum || c = '_'

/-- Greedy run of decimal digit characters: returns the longest digit prefix
and the remainder (the regex fragment matching a maximal run of digits). -/
def spanDigits : List Char → List Char × List Char
  | [] => ([], [])
  | c :: cs =>
    if c.isDigit then
      let (a, b) := spanDigits cs
      (c :: a, b)
    else ([], c :: cs)

/-- Consume one expected literal character (a literal in the regex). -/
def expectChar (c : Char) : List Char → Option (List Char)
  | [] => none
  | x :: xs => if x = c then some xs else none

/-- Case-insensitively consume one keyword (given in lowercase), mirroring a
literal alternative under `re.IGNORECASE`. -/
def stripOneCI : List Char → List Char → Option (List Char)
  | [], cs => some cs
  | _ :: _, [] => none
  | k :: ks, c :: cs => if c.toLower = k then stripOneCI ks cs else none

/-- Case-insensitively consume the first matching keyword of an alternation
such as `(?:gcc|geocentric|ecef)`.  The keyword sets of the source are
pairwise prefix-incompatible, so at most one alternative can match and the
left-to-right alternation in the regex engine equals this first-match rule. -/
def stripKeywordCI : List (List Char) → List Char → Option (List Char)
  | [], _ => none
  | k :: ks, cs =>
    match stripOneCI k cs with
    | some r => some r
    | none => stripKeywordCI ks cs

/-- Whether the string starts (case-insensitively) with one of the keywords:
the anchored prefix test the factory runs with re.match under IGNORECASE. -/
def startsWithKeywordCI (ks : List (List Char)) (cs : List Char) : Bool :=
  (stripKeywordCI ks cs).isSome

/-- Mantissa of the shared decimal pattern `(?:\.\d+|\d+\.?\d*)`: either a dot
followed by at least one digit, or at least one digit, an optional dot and
further optional digits.  Both alternatives are maximal-munch; they are
distinguished by the first character, so the greedy regex is deterministic. -/
def lexMantissa (cs : List Char) : Option (List Char × List Char) :=
  match cs with
  | [] => none
  | c :: rest =>
    if c = '.' then
      if (spanDigits rest).1 = [] then none
      else some ('.' :: (spanDigits rest).1, (spanDigits rest).2)
    else
      if (spanDigits cs).1 = [] then none
      else
        match (spanDigits cs).2 with
        | [] => some ((spanDigits cs).1, [])
        | c2 :: r2 =>
          if c2 = '.' then
            some ((spanDigits cs).1 ++ '.' :: (spanDigits r2).1, (spanDigits r2).2)
          else some ((spanDigits cs).1, c2 :: r2)

/-- Optional exponent `(?:[eE][+-]?\d+)?`: consumed only when an `e`/`E` is
followed by an optional sign and at least one digit (the regex backtracks the
whole group away otherwise); returns the consumed part and the remainder. -/
def lexExp (cs : List Char) : List Char × List Char :=
  match cs with
  | [] => ([], [])
  | e :: rest =>
    if e = 'e' ∨ e = 'E' then
      match rest with
      | [] => ([], cs)
      | s :: r2 =>
        if s = '+' ∨ s = '-' then
          if (spanDigits r2).1 = [] then ([], cs)
          else (e :: s :: (spanDigits r2).1, (spanDigits r2).2)
        else
          if (spanDigits rest).1 = [] then ([], cs)
          else (e :: (spanDigits rest).1, (spanDigits rest).2)
    else ([], cs)

/-- Maximal-munch lexer for one capture of the shared decimal-literal pattern
`DECIMAL_REGEX = [+-]?(?:\.\d+|\d+\.?\d*)(?:[eE][+-]?\d+)?` of
`pyfite/util.py`.  Returns the captured token and the remainder.  In every
context the source uses, the token is followed by a space or the end of the
pattern, neither of which a shorter token match could reach first, so greedy
maximal munch coincides with the backtracking search of the regex engine. -/
def lexDecimal (cs : List Char) : Option (List Char × List Char) :=
  match cs with
  | [] => none
  | c :: r =>
    if c = '+' ∨ c = '-' then
      match lexMantissa r with
      | none => none
      | some (m, r2) => some (c :: (m ++ (lexExp r2).1), (lexExp r2).2)
    else
      match lexMantissa (c :: r) with
      | none => none
      | some (m, r2) => some (m ++ (lexExp r2).1, (lexExp r2).2)

/-- The optional offset group
`_OPTIONAL_OFFSET = (?: (D) (D) (D))?` of `pyfite/crs.py`: matches a space and
three space-separated decimals, or nothing.  It is the final element of every
pattern it appears in, so if the full group cannot match it matches empty and
the trailing input is simply left unconsumed (`re.match` does not anchor the
end). `some` returns the three captured tokens. -/
def matchOptionalOffset (cs : List Char) : Option (List Char × List Char × List Char) :=
  match expectChar ' ' cs with
  | none => none
  | some r1 =>
    match lexDecimal r1 with
    | none => none
    | some (t1, r2) =>
      match expectChar ' ' r2 with
      | none => none
      | some r3 =>
        match lexDecimal r3 with
        | none => none
        | some (t2, r4) =>
          match expectChar ' ' r4 with
          | none => none
          | some r5 =>
            match lexDecimal r5 with
            | none => none
            | some (t3, _) => some (t1, t2, t3)

/-! ## Numeric token values (Python `float` on captured groups, exact) -/

/-- Value of a digit string (most significant first). -/
def digitsVal (cs : List Char) : ℕ :=
  cs.foldl (fun a c => 10 * a + (c.toNat - 48)) 0

/-- Leading sign of a numeric token (`True` iff negative). -/
def splitSign : List Char → Bool × List Char
  | [] => (false, [])
  | c :: r => if c = '-' then (true, r) else if c = '+' then (false, r) else (false, c :: r)

/-- Fractional digits after an optional dot. -/
def splitFrac : List Char → List Char × List Char
  | [] => ([], [])
  | c :: r => if c = '.' then spanDigits r else ([], c :: r)

/-- Signed integer value of an exponent suffix `[eE][+-]?\d+` (0 if absent). -/
def expValOf : List Char → ℤ
  | [] => 0
  | c :: r =>
    if c = 'e' ∨ c = 'E' then
      match r with
      | [] => 0
      | s :: r2 =>
        if s = '-' then -(digitsVal (spanDigits r2).1 : ℤ)
        else if s = '+' then (digitsVal (spanDigits r2).1 : ℤ)
        else (digitsVal (spanDigits (s :: r2)).1 : ℤ)
    else 0

/-- Exact value of Python `float(token)` for a token captured by the decimal
pattern: sign times `intdigits.fracdigits` times `10^exponent`, computed in
`ℚ` (the rational model of the IEEE value the source manipulates). -/
def pyFloat (t : List Char) : ℚ :=
  (if (splitSign t).1 then -1 else 1)
    * ((digitsVal ((spanDigits (splitSign t).2).1
          ++ (splitFrac (spanDigits (splitSign t).2).2).1) : ℚ)
        / 10 ^ (splitFrac (spanDigits (splitSign t).2).2).1.length)
    * 10 ^ expValOf (splitFrac (spanDigits (splitSign t).2).2).2

/-- Offset triple from an optional-offset match: the three captured floats, or
`(0.0, 0.0, 0.0)` when the group did not participate (`sm[i]` is `None`). -/
def offsetVal : Option (List Char × List Char × List Char) → ℚ × ℚ × ℚ
  | some (a, b, c) => (pyFloat a, pyFloat b, pyFloat c)
  | none => (0, 0, 0)

/-- Decidable equality for the UTM capture tuple (stated explicitly; instance
search does not unfold this nesting of products by itself). -/
instance : DecidableEq (List Char × Char × Option (List Char × List Char × List Char)) :=
  fun a b => inferInstanceAs (Decidable (a = b))

/-- Decidable equality for the LTP capture tuple. -/
instance :
    DecidableEq ((List Char × List Char × List Char)
      × Option (List Char × List Char × List Char)) :=
  fun a b => inferInstanceAs (Decidable (a = b))

/-! ## Errors raised by the source (`pyfite/crs.py`) -/

/-- The Python exceptions the CRS module can raise.  `shapeError` embeds the
`RuntimeError` of `CoordinateConverter.__call__`, carrying the offending
numpy shape it reports; `crsDefError` carries the variant name and the
offending string representation. -/
inductive PyErr where
  | crsDefError (variant : String) (srep : String)
  | runtimeError (msg : String)
  | shapeError (shape : List ℕ)
  | notImplementedError (msg : String)
  | attributeError (msg : String)
  | typeError (msg : String)
deriving DecidableEq

/-! ## CRS variants -/

/-- `LocalTangentPlane(lon, lat, alt, offset)`. -/
structure LocalTangentPlane where
  lon : ℚ
  lat : ℚ
  alt : ℚ
  offset : ℚ × ℚ × ℚ := (0, 0, 0)
deriving DecidableEq

/-- `Geocentric(offset)`. -/
structure Geocentric where
  offset : ℚ × ℚ × ℚ := (0, 0, 0)
deriving DecidableEq

/-- `Geodetic(offset)`. -/
structure Geodetic where
  offset : ℚ × ℚ × ℚ := (0, 0, 0)
deriving DecidableEq

/-- `Utm(zone, south, offset)`.  `zone` is an `int` in Python: `ℤ` here
(`fromStr` always produces a non-negative value but `fromPoint` can not). -/
structure Utm where
  zone : ℤ
  south : Bool
  offset : ℚ × ℚ × ℚ := (0, 0, 0)
deriving DecidableEq

/-- `ProjCrs(proj_str)`: the raw-projection escape hatch.  Its `__init__`
sets only `proj`, never `_offset`. -/
structure ProjCrs where
  proj : String
deriving DecidableEq

/-- The closed set of CRS variants (`CoordinateReferenceSystem` subclasses). -/
inductive Crs where
  | ltp (v : LocalTangentPlane)
  | gcc (v : Geocentric)
  | gdc (v : Geodetic)
  | utm (v : Utm)
  | prj (v : ProjCrs)
deriving DecidableEq

/-! ## Variant grammars (`srepRegex` of each class, as maximal-munch parsers)

Each `X.srepMatch` is `X.srepRegex.match(srep)` restricted to the data the
source reads out of the match object: the captured groups.  `re.match`
anchors only the start, so every parser here simply discards the unconsumed
remainder of the input. -/

/-- Keywords of `LocalTangentPlane.srepRegex`: `(?:ltp|enu)`. -/
def ltpKeywords : List (List Char) := [['l', 't', 'p'], ['e', 'n', 'u']]

/-- Keywords of `Geocentric.srepRegex`: `(?:gcc|geocentric|ecef)`. -/
def gccKeywords : List (List Char) :=
  [['g', 'c', 'c'],
   ['g', 'e', 'o', 'c', 'e', 'n', 't', 'r', 'i', 'c'],
   ['e', 'c', 'e', 'f']]

/-- Keywords of `Geodetic.srepRegex`: `(?:gdc|geodetic|lla)`. -/
def gdcKeywords : List (List Char) :=
  [['g', 'd', 'c'],
   ['g', 'e', 'o', 'd', 'e', 't', 'i', 'c'],
   ['l', 'l', 'a']]

/-- Keyword of `Utm.srepRegex`: `(?:utm)`. -/
def utmKeywords : List (List Char) := [['u', 't', 'm']]

/-- Groups of `LocalTangentPlane.srepRegex =
(?:ltp|enu) (D) (D) (D)_OPTIONAL_OFFSET`: the three required decimals and the
optional offset triple. -/
def LocalTangentPlane.srepMatch (cs : List Char) :
    Option ((List Char × List Char × List Char)
      × Option (List Char × List Char × List Char)) :=
  match stripKeywordCI ltpKeywords cs with
  | none => none
  | some r1 =>
    match expectChar ' ' r1 with
    | none => none
    | some r2 =>
      match lexDecimal r2 with
      | none => none
      | some (t1, r3) =>
        match expectChar ' ' r3 with
        | none => none
        | some r4 =>
          match lexDecimal r4 with
          | none => none
          | some (t2, r5) =>
            match expectChar ' ' r5 with
            | none => none
            | some r6 =>
              match lexDecimal r6 with
              | none => none
              | some (t3, r7) => some ((t1, t2, t3), matchOptionalOffset r7)

/-- `LocalTangentPlane.fromStr`. -/
def LocalTangentPlane.fromStr (srep : String) : Except PyErr LocalTangentPlane :=
  match LocalTangentPlane.srepMatch srep.toList with
  | some ((t1, t2, t3), off) =>
    .ok { lon := pyFloat t1, lat := pyFloat t2, alt := pyFloat t3, offset := offsetVal off }
  | none => .error (.crsDefError "LocalTangentPlane" srep)

/-- Groups of `Geocentric.srepRegex = (?:gcc|geocentric|ecef)_OPTIONAL_OFFSET`. -/
def Geocentric.srepMatch (cs : List Char) :
    Option (Option (List Char × List Char × List Char)) :=
  match stripKeywordCI gccKeywords cs with
  | none => none
  | some r1 => some (matchOptionalOffset r1)

/-- `Geocentric.fromStr`. -/
def Geocentric.fromStr (srep : String) : Except PyErr Geocentric :=
  match Geocentric.srepMatch srep.toList with
  | some off => .ok { offset := offsetVal off }
  | none => .error (.crsDefError "Geocentric" srep)

/-- Groups of `Geodetic.srepRegex = (?:gdc|geodetic|lla)_OPTIONAL_OFFSET`. -/
def Geodetic.srepMatch (cs : List Char) :
    Option (Option (List Char × List Char × List Char)) :=
  match stripKeywordCI gdcKeywords cs with
  | none => none
  | some r1 => some (matchOptionalOffset r1)

/-- `Geodetic.fromStr`. -/
def Geodetic.fromStr (srep : String) : Except PyErr Geodetic :=
  match Geodetic.srepMatch srep.toList with
  | some off => .ok { offset := offsetVal off }
  | none => .error (.crsDefError "Geodetic" srep)

/-- The `(\d{1,2})(\w)` fragment of `Utm.srepRegex`: a greedy one-or-two digit
zone capture followed by one word character.  The regex engine first tries
two digits; if no word character can follow (end of input, or a non-word
character next) it backtracks to one digit, in which case the second digit
itself — a word character — is captured as the hemisphere character. -/
def utmZoneHemi : List Char → Option (List Char × Char × List Char)
  | c1 :: c2 :: c3 :: rest =>
    if c1.isDigit then
      if c2.isDigit ∧ isWordChar c3 then some ([c1, c2], c3, rest)
      else if isWordChar c2 then some ([c1], c2, c3 :: rest)
      else none
    else none
  | [c1, c2] =>
    if c1.isDigit ∧ isWordChar c2 then some ([c1], c2, []) else none
  | _ => none

/-- Groups of `Utm.srepRegex = (?:utm) (\d{1,2})(\w)_OPTIONAL_OFFSET`. -/
def Utm.srepMatch (cs : List Char) :
    Option (List Char × Char × Option (List Char × List Char × List Char)) :=
  match stripKeywordCI utmKeywords cs with
  | none => none
  | some r1 =>
    match expectChar ' ' r1 with
    | none => none
    | some r2 =>
      match utmZoneHemi r2 with
      | none => none
      | some (zcs, hc, r3) => some (zcs, hc, matchOptionalOffset r3)

/-- `Utm.fromStr`: `Utm(int(sm[1]), sm[2].upper() <= 'M', offset)`. -/
def Utm.fromStr (srep : String) : Except PyErr Utm :=
  match Utm.srepMatch srep.toList with
  | some (zcs, hc, off) =>
    .ok { zone := (digitsVal zcs : ℤ), south := decide (hc.toUpper ≤ 'M'),
          offset := offsetVal off }
  | none => .error (.crsDefError "Utm" srep)

/-- `Utm.fromPoint(lon, lat, alt)`:
`Utm(floor((lon + 180) / 360 * 60) + 1, lat < 0)` (altitude unused). -/
def Utm.fromPoint (lon lat : ℚ) (_alt : ℚ := 0) : Utm :=
  { zone := ⌊(lon + 180) / 360 * 60⌋ + 1, south := decide (lat < 0),
    offset := (0, 0, 0) }

/-- `ProjCrs.fromStr` keeps the string verbatim. -/
def ProjCrs.fromStr (srep : String) : Except PyErr ProjCrs :=
  .ok { proj := srep }

/-! ## Factory (`CoordinateReferenceSystem.fromStr`) -/

/-- `CoordinateReferenceSystem.fromStr`: raises on the empty string, then
routes by case-insensitive keyword prefix to the variant parser; with no
keyword match the Python function falls through and returns `None`. -/
def CoordinateReferenceSystem.fromStr (srep : String) : Except PyErr (Option Crs) :=
  if srep = "" then
    .error (.runtimeError
      "Cannot instantiate a CoordinateReferenceSystem without an empty string representation")
  else if startsWithKeywordCI ltpKeywords srep.toList then
    (LocalTangentPlane.fromStr srep).map fun v => some (.ltp v)
  else if startsWithKeywordCI gdcKeywords srep.toList then
    (Geodetic.fromStr srep).map fun v => some (.gdc v)
  else if startsWithKeywordCI utmKeywords srep.toList then
    (Utm.fromStr srep).map fun v => some (.utm v)
  else if startsWithKeywordCI [['e', 'c', 'e', 'f'], ['g', 'c', 'c']] srep.toList then
    (Geocentric.fromStr srep).map fun v => some (.gcc v)
  else .ok none

/-! ## Stringification (`__str__` of each variant, exact-decimal model)

Python formats the stored float with `str()`, which prints the shortest
decimal that round-trips (and always keeps a fractional part, e.g.
`str(100.0) = '100.0'`).  On the exact-rational model this is the minimal-
length exact decimal expansion, produced below.  (For magnitudes where CPython
switches to scientific notation the spelling differs but the value is the
same; no claim in scope depends on those magnitudes.) -/

/-- Little-endian decimal digits of `n`, with explicit fuel (`fuel ≥ n`
suffices) so that the definition reduces structurally. -/
def natDigitsAux : ℕ → ℕ → List ℕ
  | 0, _ => []
  | fuel + 1, n => if n = 0 then [] else n % 10 :: natDigitsAux fuel (n / 10)

/-- Decimal digit characters of a natural number, as `str()` prints it. -/
def natDecChars (n : ℕ) : List Char :=
  if n = 0 then ['0']
  else ((natDigitsAux n n).reverse).map fun d => Char.ofNat (48 + d)

/-- Decimal digit characters of an integer, as `str()` prints it. -/
def intDecChars (z : ℤ) : List Char :=
  if z < 0 then '-' :: natDecChars z.natAbs else natDecChars z.natAbs

/-- Left-pad a digit string with zeros to length `k`. -/
def padZeros (k : ℕ) (cs : List Char) : List Char :=
  List.replicate (k - cs.length) '0' ++ cs

/-- Search for the least `k` (starting at `start`, with the given fuel) such
that `q * 10^k` is an integer. -/
def decExpAux (q : ℚ) : ℕ → ℕ → ℕ
  | 0, k => k
  | fuel + 1, k => if (q * 10 ^ k).den = 1 then k else decExpAux q fuel (k + 1)

/-- The number of decimal digits after the point which `str()` prints for the
(exactly decimal) value `q`: the least `k` with `q * 10^k` integral.  Any
value of the form `m / 10^e` has such a `k ≤ den`, so the fuel suffices. -/
def decExp (q : ℚ) : ℕ := decExpAux q (q.den + 1) 0

/-- The characters `str(q)` prints for a float of exact value `q`:
optional minus sign, integer digits, `'.'`, and `decExp q` fractional digits
(one `'0'` when the value is integral). -/
def pyFloatChars (q : ℚ) : List Char :=
  (if q < 0 then ['-'] else []) ++
    natDecChars ((q * 10 ^ decExp q).num.natAbs / 10 ^ decExp q) ++
    '.' :: (if decExp q = 0 then ['0']
      else padZeros (decExp q) (natDecChars ((q * 10 ^ decExp q).num.natAbs % 10 ^ decExp q)))

/-- `str(q)` for a float of exact value `q`. -/
def pyFloatStr (q : ℚ) : String := String.mk (pyFloatChars q)

/-- `CoordinateReferenceSystem._getOffsetStr`: `' {} {} {}'.format(*offset)`
when the offset differs from `(0.0, 0.0, 0.0)`, else the empty string. -/
def getOffsetStrChars (off : ℚ × ℚ × ℚ) : List Char :=
  if off ≠ ((0 : ℚ), (0 : ℚ), (0 : ℚ)) then
    ' ' :: (pyFloatChars off.1 ++ ' ' :: (pyFloatChars off.2.1 ++ ' ' :: pyFloatChars off.2.2))
  else []

/-- `LocalTangentPlane.__str__`: `f'ENU {lon} {lat} {alt}' + offsetStr`. -/
def LocalTangentPlane.strChars (v : LocalTangentPlane) : List Char :=
  'E' :: 'N' :: 'U' :: ' ' :: (pyFloatChars v.lon ++ ' ' :: (pyFloatChars v.lat
    ++ ' ' :: (pyFloatChars v.alt ++ getOffsetStrChars v.offset)))

/-- `str(LocalTangentPlane)`. -/
def LocalTangentPlane.toStr (v : LocalTangentPlane) : String :=
  String.mk v.strChars

/-- `Geocentric.__str__`: `'GCC' + offsetStr`. -/
def Geocentric.strChars (v : Geocentric) : List Char :=
  'G' :: 'C' :: 'C' :: getOffsetStrChars v.offset

/-- `str(Geocentric)`. -/
def Geocentric.toStr (v : Geocentric) : String := String.mk v.strChars

/-- `Geodetic.__str__`: `'GDC' + offsetStr`. -/
def Geodetic.strChars (v : Geodetic) : List Char :=
  'G' :: 'D' :: 'C' :: getOffsetStrChars v.offset

/-- `str(Geodetic)`. -/
def Geodetic.toStr (v : Geodetic) : String := String.mk v.strChars

/-- `Utm.__str__`: `'UTM {zone}{S|N}' + offsetStr`. -/
def Utm.strChars (v : Utm) : List Char :=
  'U' :: 'T' :: 'M' :: ' ' :: (intDecChars v.zone
    ++ (if v.south then 'S' else 'N') :: getOffsetStrChars v.offset)

/-- `str(Utm)`. -/
def Utm.toStr (v : Utm) : String := String.mk v.strChars

/-- `str()` of any CRS variant (`ProjCrs.__str__` returns the raw string). -/
def Crs.toStr : Crs → String
  | .ltp v => v.toStr
  | .gcc v => v.toStr
  | .gdc v => v.toStr
  | .utm v => v.toStr
  | .prj v => v.proj

/-! ## Saturating floats (IEEE binary64 overflow)

`pyFloat` keeps the exact rational value of a token, which is also the value
the program manipulates whenever the conversion is finite.  The `float`
builtin of CPython, however, saturates: a token whose value rounds to or
beyond `2^1024` converts to the infinity `inf` (for example the token
`1e999`), and `str` prints that value as the three letters `inf`.  `PyF` is
the resulting value domain and `toPyF` the saturation map; under
round-to-nearest-even a magnitude overflows exactly when it reaches
`2^1024 - 2^970`, the midpoint between the largest finite binary64 value and
`2^1024`.  (`nan` is unreachable in this module: the decimal grammar matches
neither `nan` nor `inf`, so only conversion overflow produces a non-finite
value.)  The parsers and printers of the variants are repeated below over
`PyF`; on inputs whose conversions all stay finite they agree with the exact
model above. -/

/-- The least magnitude whose round-to-nearest binary64 value is infinite. -/
def OVERFLOW_BOUND : ℚ := 2 ^ 1024 - 2 ^ 970

/-- A Python float as this module can produce one: a finite value (kept
exact, as in `pyFloat`) or an infinity carrying its sign. -/
inductive PyF where
  | fin (q : ℚ)
  | inf (neg : Bool)
deriving DecidableEq

/-- Saturation of the exact conversion value to a Python float. -/
def toPyF (q : ℚ) : PyF :=
  if OVERFLOW_BOUND ≤ |q| then .inf (decide (q < 0)) else .fin q

/-- `float(token)` with overflow: the exact value of the token, saturated. -/
def pyFloatF (t : List Char) : PyF := toPyF (pyFloat t)

/-- Componentwise saturation of an exact offset triple. -/
def toPyF3 (o : ℚ × ℚ × ℚ) : PyF × PyF × PyF :=
  (toPyF o.1, toPyF o.2.1, toPyF o.2.2)

/-- Offset triple of an optional-offset match in the saturating model; an
absent group gives the default offset, a triple of finite literals. -/
def offsetValF : Option (List Char × List Char × List Char) → PyF × PyF × PyF
  | some (a, b, c) => (toPyF (pyFloat a), toPyF (pyFloat b), toPyF (pyFloat c))
  | none => (.fin 0, .fin 0, .fin 0)

/-- `LocalTangentPlane` over saturating floats. -/
structure LocalTangentPlaneF where
  lon : PyF
  lat : PyF
  alt : PyF
  offset : PyF × PyF × PyF := (.fin 0, .fin 0, .fin 0)
deriving DecidableEq

/-- `Geocentric` over saturating floats. -/
structure GeocentricF where
  offset : PyF × PyF × PyF := (.fin 0, .fin 0, .fin 0)
deriving DecidableEq

/-- `Geodetic` over saturating floats. -/
structure GeodeticF where
  offset : PyF × PyF × PyF := (.fin 0, .fin 0, .fin 0)
deriving DecidableEq

/-- `Utm` over saturating floats (the zone is an `int` and cannot overflow). -/
structure UtmF where
  zone : ℤ
  south : Bool
  offset : PyF × PyF × PyF := (.fin 0, .fin 0, .fin 0)
deriving DecidableEq

/-- The CRS variants over saturating floats (`ProjCrs` holds no float). -/
inductive CrsF where
  | ltp (v : LocalTangentPlaneF)
  | gcc (v : GeocentricF)
  | gdc (v : GeodeticF)
  | utm (v : UtmF)
  | prj (v : ProjCrs)
deriving DecidableEq

/-- `LocalTangentPlane.fromStr` in the saturating model: the same regex
match, with every `float(...)` conversion saturated. -/
def LocalTangentPlaneF.fromStr (srep : String) : Except PyErr LocalTangentPlaneF :=
  match LocalTangentPlane.srepMatch srep.toList with
  | some ((t1, t2, t3), off) =>
    .ok { lon := toPyF (pyFloat t1), lat := toPyF (pyFloat t2),
          alt := toPyF (pyFloat t3), offset := offsetValF off }
  | none => .error (.crsDefError "LocalTangentPlane" srep)

/-- `Geocentric.fromStr` in the saturating model. -/
def GeocentricF.fromStr (srep : String) : Except PyErr GeocentricF :=
  match Geocentric.srepMatch srep.toList with
  | some off => .ok { offset := offsetValF off }
  | none => .error (.crsDefError "Geocentric" srep)

/-- `Geodetic.fromStr` in the saturating model. -/
def GeodeticF.fromStr (srep : String) : Except PyErr GeodeticF :=
  match Geodetic.srepMatch srep.toList with
  | some off => .ok { offset := offsetValF off }
  | none => .error (.crsDefError "Geodetic" srep)

/-- `Utm.fromStr` in the saturating model. -/
def UtmF.fromStr (srep : String) : Except PyErr UtmF :=
  match Utm.srepMatch srep.toList with
  | some (zcs, hc, off) =>
    .ok { zone := (digitsVal zcs : ℤ), south := decide (hc.toUpper ≤ 'M'),
          offset := offsetValF off }
  | none => .error (.crsDefError "Utm" srep)

/-- `CoordinateReferenceSystem.fromStr` (the factory) in the saturating
model: same keyword routing, saturating variant parsers. -/
def CoordinateReferenceSystemF.fromStr (srep : String) : Except PyErr (Option CrsF) :=
  if srep = "" then
    .error (.runtimeError
      "Cannot instantiate a CoordinateReferenceSystem without an empty string representation")
  else if startsWithKeywordCI ltpKeywords srep.toList then
    (LocalTangentPlaneF.fromStr srep).map fun v => some (.ltp v)
  else if startsWithKeywordCI gdcKeywords srep.toList then
    (GeodeticF.fromStr srep).map fun v => some (.gdc v)
  else if startsWithKeywordCI utmKeywords srep.toList then
    (UtmF.fromStr srep).map fun v => some (.utm v)
  else if startsWithKeywordCI [['e', 'c', 'e', 'f'], ['g', 'c', 'c']] srep.toList then
    (GeocentricF.fromStr srep).map fun v => some (.gcc v)
  else .ok none

/-- The characters `str` prints for a saturating float (`str` spells a float
infinity `inf`, with a sign when negative). -/
def PyF.strChars : PyF → List Char
  | .fin q => pyFloatChars q
  | .inf false => ['i', 'n', 'f']
  | .inf true => ['-', 'i', 'n', 'f']

/-- `_getOffsetStr` over saturating floats: an infinite component compares
different from `0.0`, so such an offset does print. -/
def getOffsetStrFChars (off : PyF × PyF × PyF) : List Char :=
  if off ≠ (.fin 0, .fin 0, .fin 0) then
    ' ' :: (PyF.strChars off.1 ++ ' ' :: (PyF.strChars off.2.1 ++ ' ' :: PyF.strChars off.2.2))
  else []

/-- `LocalTangentPlane.__str__` over saturating floats. -/
def LocalTangentPlaneF.strChars (v : LocalTangentPlaneF) : List Char :=
  'E' :: 'N' :: 'U' :: ' ' :: (PyF.strChars v.lon ++ ' ' :: (PyF.strChars v.lat
    ++ ' ' :: (PyF.strChars v.alt ++ getOffsetStrFChars v.offset)))

/-- `str(LocalTangentPlane)` over saturating floats. -/
def LocalTangentPlaneF.toStr (v : LocalTangentPlaneF) : String := String.mk v.strChars

/-- `Geocentric.__str__` over saturating floats. -/
def GeocentricF.strChars (v : GeocentricF) : List Char :=
  'G' :: 'C' :: 'C' :: getOffsetStrFChars v.offset

/-- `str(Geocentric)` over saturating floats. -/
def GeocentricF.toStr (v : GeocentricF) : String := String.mk v.strChars

/-- `Geodetic.__str__` over saturating floats. -/
def GeodeticF.strChars (v : GeodeticF) : List Char :=
  'G' :: 'D' :: 'C' :: getOffsetStrFChars v.offset

/-- `str(Geodetic)` over saturating floats. -/
def GeodeticF.toStr (v : GeodeticF) : String := String.mk v.strChars

/-- `Utm.__str__` over saturating floats. -/
def UtmF.strChars (v : UtmF) : List Char :=
  'U' :: 'T' :: 'M' :: ' ' :: (intDecChars v.zone
    ++ (if v.south then 'S' else 'N') :: getOffsetStrFChars v.offset)

/-- `str(Utm)` over saturating floats. -/
def UtmF.toStr (v : UtmF) : String := String.mk v.strChars

/-- `str()` of any CRS variant, over saturating floats. -/
def CrsF.toStr : CrsF → String
  | .ltp v => v.toStr
  | .gcc v => v.toStr
  | .gdc v => v.toStr
  | .utm v => v.toStr
  | .prj v => v.proj

/-- Reading `.offset` in the saturating model (as `Crs.offsetE` below: a
`ProjCrs` never sets `_offset`, so the property getter raises). -/
def CrsF.offsetF : CrsF → Except PyErr (PyF × PyF × PyF)
  | .ltp v => .ok v.offset
  | .gcc v => .ok v.offset
  | .gdc v => .ok v.offset
  | .utm v => .ok v.offset
  | .prj _ => .error (.notImplementedError "CoordinateReferenceSystem must set _offset")

/-- A saturating float that did not overflow. -/
def PyF.isFin : PyF → Bool
  | .fin _ => true
  | .inf _ => false

/-- Every float field of the CRS is finite: none of the conversions that
built it overflowed. -/
def CrsF.finiteFloats : CrsF → Bool
  | .ltp v => v.lon.isFin && v.lat.isFin && v.alt.isFin
      && v.offset.1.isFin && v.offset.2.1.isFin && v.offset.2.2.isFin
  | .gcc v => v.offset.1.isFin && v.offset.2.1.isFin && v.offset.2.2.isFin
  | .gdc v => v.offset.1.isFin && v.offset.2.1.isFin && v.offset.2.2.isFin
  | .utm v => v.offset.1.isFin && v.offset.2.1.isFin && v.offset.2.2.isFin
  | .prj _ => true

/-! ## Projection-engine descriptor strings (`getProjStr`) -/

/-- `_ECEF_PROJ`. -/
def ECEF_PROJ : String := "+proj=geocent +ellps=WGS84"

/-- `_GEODETIC_PROJ`. -/
def GEODETIC_PROJ : String := "+proj=longlat +ellps=WGS84 +datum=WGS84 +no_defs"

/-- `Geocentric.getProjStr`. -/
def Geocentric.getProjStr (_ : Geocentric) : String := ECEF_PROJ

/-- `Geodetic.getProjStr`. -/
def Geodetic.getProjStr (_ : Geodetic) : String := GEODETIC_PROJ

/-- `Utm.getProjStr`: an f-string prefix `+proj=utm +zone=`, the zone number, ` +ellps=WGS84`, plus
`' +south'` when in the southern hemisphere. -/
def Utm.getProjStr (v : Utm) : String :=
  "+proj=utm +zone=" ++ String.mk (intDecChars v.zone) ++ " +ellps=WGS84"
    ++ (if v.south then " +south" else "")

/-- `ProjCrs.getProjStr` returns the stored string. -/
def ProjCrs.getProjStr (v : ProjCrs) : String := v.proj

/-- The projection descriptor of a variant, when it has one
(`LocalTangentPlane` defines no `getProjStr`; calling it would be an
`AttributeError`, which the converter code never does). -/
def Crs.getProjStrOpt : Crs → Option String
  | .ltp _ => none
  | .gcc v => some v.getProjStr
  | .gdc v => some v.getProjStr
  | .utm v => some v.getProjStr
  | .prj v => some v.getProjStr

/-! ## The converter dispatcher (`CoordinateConverter.__getConverter`) -/

/-- A 3D point (one row of an `(N, 3)` batch). -/
abbrev Pt3 := ℚ × ℚ × ℚ

/-- The external transform capabilities the converter closures invoke, one
point at a time (the source calls them on whole columns; every call is
elementwise, so the row-wise view is equivalent).  Argument orders follow the
library signatures: `enu2ecef(e, n, u, lat0, lon0, alt0)`,
`ecef2enu(x, y, z, lat0, lon0, alt0)`, `enu2geodetic(...) -> (lat, lon, alt)`,
`geodetic2enu(lat, lon, alt, lat0, lon0, alt0) -> (e, n, u)`, and the
`pyproj` transformer built from two projection strings with `always_xy`. -/
structure Engine where
  pyproj : String → String → Pt3 → Pt3
  enu2ecef : Pt3 → ℚ → ℚ → ℚ → Pt3
  ecef2enu : Pt3 → ℚ → ℚ → ℚ → Pt3
  enu2geodetic : Pt3 → ℚ → ℚ → ℚ → Pt3
  geodetic2enu : ℚ → ℚ → ℚ → ℚ → ℚ → ℚ → Pt3

/-- The transform chain selected by `__getConverter`: which closure the
dispatcher returned, with the values it closed over. -/
inductive Chain where
  | pyproj (fromProj toProj : String)
  | enu2enu (f t : LocalTangentPlane)
  | enu2ecef (f : LocalTangentPlane)
  | enu2gdc (f : LocalTangentPlane)
  | enu2utm (f : LocalTangentPlane) (toProj : String)
  | ecef2enu (t : LocalTangentPlane)
  | gdc2enu (t : LocalTangentPlane)
  | utm2enu (fromProj : String) (t : LocalTangentPlane)
deriving DecidableEq

/-- Swap the first two components (`np.column_stack((lon, lat, alt))` after a
call returning `(lat, lon, alt)`, and the converse). -/
def swap12 (p : Pt3) : Pt3 := (p.2.1, p.1, p.2.2)

/-- The function each selected closure computes on a batch of rows,
parameterized by the engine.  Each case transcribes the corresponding closure
in `__getConverter`, including the column reorderings done with
`np.column_stack`. -/
def Chain.run (E : Engine) : Chain → List Pt3 → List Pt3
  | .pyproj fp tp, pts => pts.map (E.pyproj fp tp)
  | .enu2enu f t, pts =>
    pts.map fun p => E.ecef2enu (E.enu2ecef p f.lat f.lon f.alt) t.lat t.lon t.alt
  | .enu2ecef f, pts => pts.map fun p => E.enu2ecef p f.lat f.lon f.alt
  | .enu2gdc f, pts => pts.map fun p => swap12 (E.enu2geodetic p f.lat f.lon f.alt)
  | .enu2utm f tp, pts =>
    (pts.map fun p => swap12 (E.enu2geodetic p f.lat f.lon f.alt)).map
      (E.pyproj GEODETIC_PROJ tp)
  | .ecef2enu t, pts => pts.map fun p => E.ecef2enu p t.lat t.lon t.alt
  | .gdc2enu t, pts =>
    pts.map fun p => swap12 (E.geodetic2enu p.2.1 p.1 p.2.2 t.lat t.lon t.alt)
  | .utm2enu fp t, pts =>
    (pts.map (E.pyproj fp GEODETIC_PROJ)).map fun p =>
      swap12 (E.geodetic2enu p.2.1 p.1 p.2.2 t.lat t.lon t.alt)

/-- `CoordinateConverter.__getConverter`.  The first guard returns the direct
projection-engine transform whenever neither endpoint is a
`LocalTangentPlane`; otherwise the `if/elif` ladders select one of the eight
LTP-involving closures.  A `LocalTangentPlane` paired with a `ProjCrs`
matches no branch of either ladder, so the Python function falls off the end
and returns `None`. -/
def getConverter (fromCrs toCrs : Crs) : Option Chain :=
  match fromCrs.getProjStrOpt, toCrs.getProjStrOpt with
  | some fp, some tp => some (.pyproj fp tp)
  | _, _ =>
    match fromCrs, toCrs with
    | .ltp f, .ltp t => some (.enu2enu f t)
    | .ltp f, .gcc _ => some (.enu2ecef f)
    | .ltp f, .gdc _ => some (.enu2gdc f)
    | .ltp f, .utm u => some (.enu2utm f u.getProjStr)
    | .gcc _, .ltp t => some (.ecef2enu t)
    | .gdc _, .ltp t => some (.gdc2enu t)
    | .utm u, .ltp t => some (.utm2enu u.getProjStr t)
    | _, _ => none

/-! ## The converter object (`CoordinateConverter`) -/

/-- Reading `.offset` from a value: defined for the four variants whose
constructors set `_offset`; a `ProjCrs` never sets it, so the property getter
raises `NotImplementedError`. -/
def Crs.offsetE : Crs → Except PyErr (ℚ × ℚ × ℚ)
  | .ltp v => .ok v.offset
  | .gcc v => .ok v.offset
  | .gdc v => .ok v.offset
  | .utm v => .ok v.offset
  | .prj _ => .error (.notImplementedError "CoordinateReferenceSystem must set _offset")

/-- A constructor argument: a typed CRS or a string (`Union[CRS, str]`). -/
abbrev CrsOrStr := Crs ⊕ String

/-- `arg.offset` for a constructor argument: a Python `str` has no `offset`
attribute, so the attribute lookup raises `AttributeError`. -/
def argOffsetE : CrsOrStr → Except PyErr (ℚ × ℚ × ℚ)
  | .inl c => c.offsetE
  | .inr _ => .error (.attributeError "str object has no attribute offset")

/-- The `isinstance` normalization
`fromCrs if isinstance(fromCrs, CoordinateReferenceSystem) else fromStr(fromCrs)`.
A factory result of `None` would only fail later, inside `__getConverter`,
when `None.getProjStr()` is attempted; that `AttributeError` is folded in
here.  (The string branch is dead code: reading `.offset` from a string has
already raised before this line runs.) -/
def resolveArg : CrsOrStr → Except PyErr Crs
  | .inl c => .ok c
  | .inr s =>
    match CoordinateReferenceSystem.fromStr s with
    | .error e => .error e
    | .ok (some c) => .ok c
    | .ok none => .error (.attributeError "NoneType object has no attribute getProjStr")

/-- The state a constructed `CoordinateConverter` holds: the two offsets
captured in `__init__` and the selected transform chain (`None` when
`__getConverter` fell through). -/
structure CoordinateConverter where
  fromOffset : ℚ × ℚ × ℚ
  toOffset : ℚ × ℚ × ℚ
  convert : Option Chain
deriving DecidableEq

/-- `CoordinateConverter.__init__`: captures `fromCrs.offset` and
`toCrs.offset` (before any string-to-CRS normalization), then resolves the
arguments and selects the transform chain. -/
def CoordinateConverter.init (fromArg toArg : CrsOrStr) :
    Except PyErr CoordinateConverter :=
  match argOffsetE fromArg with
  | .error e => .error e
  | .ok fo =>
    match argOffsetE toArg with
    | .error e => .error e
    | .ok go =>
      match resolveArg fromArg with
      | .error e => .error e
      | .ok fromCrs =>
        match resolveArg toArg with
        | .error e => .error e
        | .ok toCrs =>
          .ok { fromOffset := fo, toOffset := go, convert := getConverter fromCrs toCrs }

/-! ## Point batches (`numpy` arrays) -/

/-- A numpy array: its shape and its row-major flat data.  (`pyfite` only
validates the shape and then operates on rows; a well-formed array satisfies
`flat.length = shape.prod`.) -/
structure NDArray where
  shape : List ℕ
  flat : List ℚ
deriving DecidableEq

/-- Rows of a well-formed `(N, 3)` array. -/
def chunk3 : List ℚ → List Pt3
  | a :: b :: c :: rest => (a, b, c) :: chunk3 rest
  | _ => []

/-- Flatten rows back into `(N, 3)` row-major data. -/
def flat3 : List Pt3 → List ℚ
  | [] => []
  | (a, b, c) :: rest => a :: b :: c :: flat3 rest

/-- Componentwise translation of one row by an offset tuple
(`points + offset` / `points - offset` with numpy broadcasting). -/
def addOff (p : Pt3) (o : ℚ × ℚ × ℚ) : Pt3 :=
  (p.1 + o.1, p.2.1 + o.2.1, p.2.2 + o.2.2)

/-- Componentwise subtraction of an offset tuple from one row. -/
def subOff (p : Pt3) (o : ℚ × ℚ × ℚ) : Pt3 :=
  (p.1 - o.1, p.2.1 - o.2.1, p.2.2 - o.2.2)

/-- `CoordinateConverter.__call__`: rejects any shape other than two
dimensions with 3 columns (`RuntimeError` reporting the shape), then computes
`convert(points + fromOffset) - toOffset`; with `convert = None` the call
`None(...)` raises `TypeError`.  The output shape is the `column_stack`
of the transformed columns: `(N, 3)`. -/
def CoordinateConverter.call (cv : CoordinateConverter) (E : Engine)
    (points : NDArray) : Except PyErr NDArray :=
  if points.shape.length ≠ 2 ∨ points.shape.get? 1 ≠ some 3 then
    .error (.shapeError points.shape)
  else
    match cv.convert with
    | none => .error (.typeError "NoneType object is not callable")
    | some ch =>
      let outRows := (ch.run E ((chunk3 points.flat).map fun p => addOff p cv.fromOffset)).map
        fun p => subOff p cv.toOffset
      .ok { shape := [outRows.length, 3], flat := flat3 outRows }

/-! ## Token-shape predicates

These describe exactly the strings the decimal pattern of `pyfite/util.py`
accepts as one whole token, mirroring its three parts
`[+-]?`, `(?:\.\d+|\d+\.?\d*)`, `(?:[eE][+-]?\d+)?`. -/

/-- Shape of `[+-]?`. -/
def SignShape (s : List Char) : Prop := s = [] ∨ s = ['+'] ∨ s = ['-']

/-- Shape of `(?:\.\d+|\d+\.?\d*)`. -/
def MantShape (m : List Char) : Prop :=
  (∃ fs, m = '.' :: fs ∧ fs ≠ [] ∧ ∀ c ∈ fs, c.isDigit = true)
  ∨ (∃ ds tl, m = ds ++ tl ∧ ds ≠ [] ∧ (∀ c ∈ ds, c.isDigit = true)
      ∧ (tl = [] ∨ ∃ fs, tl = '.' :: fs ∧ ∀ c ∈ fs, c.isDigit = true))

/-- Shape of `(?:[eE][+-]?\d+)?`. -/
def ExpShape (e : List Char) : Prop :=
  e = [] ∨ ∃ ec sg ds, e = ec :: (sg ++ ds) ∧ (ec = 'e' ∨ ec = 'E')
    ∧ (sg = [] ∨ sg = ['+'] ∨ sg = ['-']) ∧ ds ≠ [] ∧ ∀ c ∈ ds, c.isDigit = true

/-- Shape of one whole decimal token. -/
def DecShape (t : List Char) : Prop :=
  ∃ sgn m e, t = sgn ++ (m ++ e) ∧ SignShape sgn ∧ MantShape m ∧ ExpShape e

/-- What may follow a token in the grammars: a space (the literal separator)
or the end of the input. -/
def SepTail (r : List Char) : Prop := r = [] ∨ ∃ r2, r = ' ' :: r2

/-- A trailing partial offset: one or two space-separated decimal tokens at
the end of the string. -/
def ShortOffsetTail (r : List Char) : Prop :=
  (∃ d1, DecShape d1 ∧ r = ' ' :: d1)
  ∨ (∃ d1 d2, DecShape d1 ∧ DecShape d2 ∧ r = ' ' :: (d1 ++ ' ' :: d2))

/-- Values of the form `m / 10^k`: exactly the values Python `float()` takes
on decimal tokens (in the exact-rational model). -/
def DecVal (q : ℚ) : Prop := ∃ (m : ℤ) (k : ℕ), q = (m : ℚ) / 10 ^ k

/-- All three components of an offset triple are decimal values. -/
def DecValT (o : ℚ × ℚ × ℚ) : Prop := DecVal o.1 ∧ DecVal o.2.1 ∧ DecVal o.2.2

/-! ## Helper lemmas -/

theorem toNat_of_isDigit {c : Char} (h : c.isDigit = true) :
    48 ≤ c.toNat ∧ c.toNat ≤ 57 := by
  simp only [Char.isDigit, Bool.and_eq_true, decide_eq_true_eq, ge_iff_le] at h
  obtain ⟨h1, h2⟩ := h
  rw [UInt32.le_def, BitVec.le_def] at h1 h2
  exact ⟨h1, h2⟩

theorem utmZoneHemi_inv {cs zcs : List Char} {hc : Char} {r : List Char}
    (h : utmZoneHemi cs = some (zcs, hc, r)) :
    (∃ c1, zcs = [c1] ∧ c1.isDigit = true)
      ∨ (∃ c1 c2, zcs = [c1, c2] ∧ c1.isDigit = true ∧ c2.isDigit = true) := by
  rcases cs with _ | ⟨c1, _ | ⟨c2, _ | ⟨c3, rest⟩⟩⟩
  · simp [utmZoneHemi] at h
  · simp [utmZoneHemi] at h
  · rw [utmZoneHemi] at h
    split_ifs at h with h1
    simp only [Option.some.injEq, Prod.mk.injEq] at h
    exact Or.inl ⟨c1, h.1.symm, h1.1⟩
  · rw [utmZoneHemi] at h
    split_ifs at h with h1 h2 h3
    · simp only [Option.some.injEq, Prod.mk.injEq] at h
      exact Or.inr ⟨c1, c2, h.1.symm, h1, h2.1⟩
    · simp only [Option.some.injEq, Prod.mk.injEq] at h
      exact Or.inl ⟨c1, h.1.symm, h1⟩

/-! ## C8 -/

/-- C8: `Utm.fromPoint(lon, lat)` has zone `floor((lon + 180) / 360 * 60) + 1`
and is southern exactly when `lat < 0`; `fromPoint(0, 10)` is zone 31 north
and `fromPoint(-179, -10)` is zone 1 south. -/
theorem utm_fromPoint_spec :
    (∀ lon lat alt : ℚ,
      (Utm.fromPoint lon lat alt).zone = ⌊(lon + 180) / 360 * 60⌋ + 1
        ∧ ((Utm.fromPoint lon lat alt).south = true ↔ lat < 0))
    ∧ Utm.fromPoint 0 10 = { zone := 31, south := false, offset := (0, 0, 0) }
    ∧ Utm.fromPoint (-179) (-10) = { zone := 1, south := true, offset := (0, 0, 0) } := by
  refine ⟨fun lon lat alt => ⟨rfl, by simp [Utm.fromPoint]⟩, ?_, ?_⟩
  · rw [Utm.fromPoint, Utm.mk.injEq]
    refine ⟨?_, by norm_num, rfl⟩
    rw [show ((0 : ℚ) + 180) / 360 * 60 = ((30 : ℤ) : ℚ) by norm_num, Int.floor_intCast]
    norm_num
  · rw [Utm.fromPoint, Utm.mk.injEq]
    refine ⟨?_, by norm_num, rfl⟩
    have : ⌊((-179 : ℚ) + 180) / 360 * 60⌋ = 0 := by
      rw [Int.floor_eq_zero_iff]
      constructor <;> norm_num
    rw [this]
    norm_num

/-! ## C10 -/

/-- C10: constructing a `CoordinateConverter` from string arguments always
fails (`fromCrs.offset` is read before any string is converted, and a `str`
has no `offset` attribute); construction succeeds only when both arguments
are typed CRS values. -/
theorem converter_init_string_args_fail :
    (∀ s1 s2 : String,
      CoordinateConverter.init (.inr s1) (.inr s2)
        = .error (.attributeError "str object has no attribute offset"))
    ∧ (∀ a b : CrsOrStr, ∀ cv, CoordinateConverter.init a b = .ok cv →
        (∃ c : Crs, a = .inl c) ∧ (∃ c : Crs, b = .inl c)) := by
  constructor
  · intro s1 s2
    rfl
  · intro a b cv h
    cases a with
    | inr s => simp [CoordinateConverter.init, argOffsetE] at h
    | inl c1 =>
      cases b with
      | inr s =>
        rw [CoordinateConverter.init] at h
        rcases h1 : argOffsetE (Sum.inl c1) with e | fo <;> rw [h1] at h
        · simp at h
        · simp [argOffsetE] at h
      | inl c2 => exact ⟨⟨c1, rfl⟩, ⟨c2, rfl⟩⟩

theorem converter_init_string_args_fail_witness :
    CoordinateConverter.init (.inr "GCC") (.inr "GDC")
        = .error (.attributeError "str object has no attribute offset")
    ∧ (∃ c : Crs, (Sum.inl (Crs.gcc { offset := (0, 0, 0) }) : CrsOrStr) = .inl c) := by
  refine ⟨converter_init_string_args_fail.1 "GCC" "GDC", ?_⟩
  exact (converter_init_string_args_fail.2
    (Sum.inl (Crs.gcc { offset := (0, 0, 0) }))
    (Sum.inl (Crs.gdc { offset := (0, 0, 0) }))
    { fromOffset := (0, 0, 0), toOffset := (0, 0, 0),
      convert := some (.pyproj ECEF_PROJ GEODETIC_PROJ) } rfl).1

/-! ## C5 -/

/-- C5 counterexample: the dispatcher is not total on the five variants — the
pair (LocalTangentPlane, RawProjection) selects no transform chain. -/
theorem getConverter_ltp_prj_none :
    getConverter (.ltp { lon := 0, lat := 0, alt := 0, offset := (0, 0, 0) })
      (.prj { proj := "+proj=tmerc" }) = none := rfl

/-- C5 (amended): the dispatch selection yields a chain for every ordered
pair of variants except (LocalTangentPlane, RawProjection) and
(RawProjection, LocalTangentPlane), which fall through with no transform. -/
theorem getConverter_total_except_prj_ltp (f t : Crs) :
    getConverter f t = none ↔
      ((∃ v w, f = .ltp v ∧ t = .prj w) ∨ (∃ v w, f = .prj v ∧ t = .ltp w)) := by
  cases f <;> cases t <;>
    simp [getConverter, Crs.getProjStrOpt]

theorem pyFloat_eval {t r1 ids r2 fds r3 : List Char} {neg : Bool}
    (h1 : splitSign t = (neg, r1)) (h2 : spanDigits r1 = (ids, r2))
    (h3 : splitFrac r2 = (fds, r3)) :
    pyFloat t = (if neg then -1 else 1)
      * ((digitsVal (ids ++ fds) : ℚ) / 10 ^ fds.length) * 10 ^ expValOf r3 := by
  simp only [pyFloat, h1, h2, h3]

theorem pyFloat_intTok {t : List Char} {n : ℕ} (h1 : splitSign t = (false, t))
    (h2 : spanDigits t = (t, [])) (hd : digitsVal t = n) :
    pyFloat t = n := by
  rw [pyFloat_eval h1 h2 (by rfl)]
  simp [expValOf, hd]

theorem Utm.srepMatch_inv {cs zcs : List Char} {hc : Char}
    {off : Option (List Char × List Char × List Char)}
    (h : Utm.srepMatch cs = some (zcs, hc, off)) :
    ∃ r2 r3, utmZoneHemi r2 = some (zcs, hc, r3) ∧ off = matchOptionalOffset r3 := by
  rw [Utm.srepMatch] at h
  rcases h1 : stripKeywordCI utmKeywords cs with _ | r1 <;> rw [h1] at h
  · simp at h
  dsimp only at h
  rcases h2 : expectChar ' ' r1 with _ | r2 <;> rw [h2] at h
  · simp at h
  dsimp only at h
  rcases h3 : utmZoneHemi r2 with _ | ⟨zcs', hc', r3⟩ <;> rw [h3] at h
  · simp at h
  simp only [Option.some.injEq, Prod.mk.injEq] at h
  exact ⟨r2, r3, by rw [h3, h.1, h.2.1], h.2.2.symm⟩

theorem digitsVal_zone_le {zcs : List Char}
    (h : (∃ c1, zcs = [c1] ∧ c1.isDigit = true)
      ∨ (∃ c1 c2, zcs = [c1, c2] ∧ c1.isDigit = true ∧ c2.isDigit = true)) :
    digitsVal zcs ≤ 99 := by
  rcases h with ⟨c1, rfl, hd⟩ | ⟨c1, c2, rfl, hd1, hd2⟩
  · have := toNat_of_isDigit hd
    simp only [digitsVal, List.foldl]
    omega
  · have h1 := toNat_of_isDigit hd1
    have h2 := toNat_of_isDigit hd2
    simp only [digitsVal, List.foldl]
    omega

/-! ## C9 -/

/-- C9 counterexample: `"UTM 99N"` is accepted by the UTM grammar and parses
to zone 99, outside the range 1–60. -/
theorem utm_parse_zone_99 :
    Utm.fromStr "UTM 99N" = .ok { zone := 99, south := false, offset := (0, 0, 0) }
      ∧ ¬((1 : ℤ) ≤ 99 ∧ (99 : ℤ) ≤ 60) := by
  constructor
  · have hm : Utm.srepMatch "UTM 99N".toList = some (['9', '9'], 'N', none) := by decide
    rw [Utm.fromStr, hm]
    rfl
  · decide

theorem utm_fromStr_zone_aux :
    ∀ (s : String) (u : Utm), Utm.fromStr s = .ok u → 0 ≤ u.zone ∧ u.zone ≤ 99 := by
  intro s u h
  rw [Utm.fromStr] at h
  rcases hm : Utm.srepMatch s.toList with _ | ⟨zcs, hc, off⟩ <;> rw [hm] at h
  · simp at h
  · simp only [Except.ok.injEq] at h
    obtain ⟨r2, r3, hz, _⟩ := Utm.srepMatch_inv hm
    have hb := digitsVal_zone_le (utmZoneHemi_inv hz)
    subst h
    refine ⟨Int.ofNat_nonneg _, ?_⟩
    show (digitsVal zcs : ℤ) ≤ 99
    exact_mod_cast hb

/-- C9 (amended): every `Utm` produced by parsing a string accepted by the
UTM grammar has a zone in the range 0–99 (the `\d{1,2}` capture bounds it by
99, but neither a lower bound of 1 nor an upper bound of 60 is enforced). -/
theorem utm_parse_zone_bounds :
    ∀ (s : String) (u : Utm), Utm.fromStr s = .ok u → 0 ≤ u.zone ∧ u.zone ≤ 99 :=
  utm_fromStr_zone_aux

theorem utm_parse_zone_bounds_witness :
    (0 : ℤ) ≤ 31 ∧ (31 : ℤ) ≤ 99 := by
  have h : Utm.fromStr "UTM 31N" = .ok { zone := 31, south := false, offset := (0, 0, 0) } := by
    have hm : Utm.srepMatch "UTM 31N".toList = some (['3', '1'], 'N', none) := by decide
    rw [Utm.fromStr, hm]
    rfl
  exact utm_parse_zone_bounds "UTM 31N" _ h

/-! ## C4 -/

/-- C4: every string accepted by the UTM grammar parses to a `Utm` that is
southern exactly when the captured hemisphere character, uppercased, sorts at
or before `'M'`; `"UTM 31N 10 20 30"` gives zone 31, north, offset
`(10, 20, 30)` and `"UTM 31n"` gives zone 31, north, offset `(0, 0, 0)`. -/
theorem utm_hemisphere_rule :
    (∀ (s : String) zcs hc off, Utm.srepMatch s.toList = some (zcs, hc, off) →
      ∃ u, Utm.fromStr s = .ok u ∧ (u.south = true ↔ hc.toUpper ≤ 'M'))
    ∧ Utm.fromStr "UTM 31N 10 20 30"
        = .ok { zone := 31, south := false, offset := (10, 20, 30) }
    ∧ Utm.fromStr "UTM 31n" = .ok { zone := 31, south := false, offset := (0, 0, 0) } := by
  refine ⟨?_, ?_, ?_⟩
  · intro s zcs hc off h
    refine ⟨_, by rw [Utm.fromStr, h], ?_⟩
    simp
  · have hm : Utm.srepMatch "UTM 31N 10 20 30".toList
        = some (['3', '1'], 'N', some (['1', '0'], ['2', '0'], ['3', '0'])) := by decide
    rw [Utm.fromStr, hm]
    simp only [Except.ok.injEq, Utm.mk.injEq, offsetVal, Prod.mk.injEq]
    refine ⟨by decide, by decide, ?_, ?_, ?_⟩
    · exact pyFloat_intTok (by decide) (by decide) (by decide)
    · exact pyFloat_intTok (by decide) (by decide) (by decide)
    · exact pyFloat_intTok (by decide) (by decide) (by decide)
  · have hm : Utm.srepMatch "UTM 31n".toList = some (['3', '1'], 'n', none) := by decide
    rw [Utm.fromStr, hm]
    rfl

theorem utm_hemisphere_rule_witness :
    ∃ u, Utm.fromStr "UTM 5S" = .ok u ∧ (u.south = true ↔ 'S'.toUpper ≤ 'M') := by
  exact utm_hemisphere_rule.1 "UTM 5S" ['5'] 'S' none (by decide)

/-! ## Converter lemmas -/

theorem Chain.run_length (E : Engine) (ch : Chain) (pts : List Pt3) :
    (ch.run E pts).length = pts.length := by
  cases ch <;> simp [Chain.run]

theorem chunk3_length : ∀ {l : List ℚ} {n : ℕ}, l.length = 3 * n → (chunk3 l).length = n := by
  intro l n
  induction n generalizing l with
  | zero =>
    intro h
    rcases List.length_eq_zero.mp h with rfl
    rfl
  | succ n ih =>
    intro h
    rcases l with _ | ⟨a, _ | ⟨b, _ | ⟨c, rest⟩⟩⟩ <;>
      simp only [List.length_nil, List.length_cons] at h
    · omega
    · omega
    · omega
    · rw [chunk3]
      have h3 : rest.length = 3 * n := by omega
      simp [ih h3]

theorem init_inl_inl_inv {f t : Crs} {cv : CoordinateConverter}
    (h : CoordinateConverter.init (.inl f) (.inl t) = .ok cv) :
    ∃ fo go, f.offsetE = .ok fo ∧ t.offsetE = .ok go
      ∧ cv = ⟨fo, go, getConverter f t⟩ := by
  rw [CoordinateConverter.init] at h
  rcases h1 : argOffsetE (Sum.inl f) with e | fo <;> rw [h1] at h
  · simp at h
  dsimp only at h
  rcases h2 : argOffsetE (Sum.inl t) with e | go <;> rw [h2] at h
  · simp at h
  dsimp only at h
  simp only [resolveArg] at h
  simp only [Except.ok.injEq] at h
  exact ⟨fo, go, by simpa [argOffsetE] using h1, by simpa [argOffsetE] using h2, h.symm⟩

theorem offsetE_ok_getConverter {f t : Crs} {fo go : ℚ × ℚ × ℚ}
    (hf : f.offsetE = .ok fo) (ht : t.offsetE = .ok go) :
    ∃ ch, getConverter f t = some ch := by
  cases f <;> cases t <;>
    first
      | exact ⟨_, rfl⟩
      | simp [Crs.offsetE] at hf ht

/-! ## C2 -/

/-- C2: the converter call raises the shape error (reporting the offending
shape) exactly when the input array does not have two dimensions with 3
columns; on a well-formed `(N, 3)` input it returns an `(N, 3)` array. -/
theorem converter_call_shape :
    (∀ (cv : CoordinateConverter) (E : Engine) (pts : NDArray),
      cv.call E pts = .error (.shapeError pts.shape)
        ↔ ¬(pts.shape.length = 2 ∧ pts.shape.get? 1 = some 3))
    ∧ (∀ (a b : CrsOrStr) (cv : CoordinateConverter) (E : Engine) (pts : NDArray) (n : ℕ),
      CoordinateConverter.init a b = .ok cv →
      pts.shape = [n, 3] → pts.flat.length = 3 * n →
      ∃ out, cv.call E pts = .ok out ∧ out.shape = [n, 3]) := by
  constructor
  · intro cv E pts
    by_cases hs : pts.shape.length = 2 ∧ pts.shape.get? 1 = some 3
    · rw [CoordinateConverter.call, if_neg (by push_neg; exact ⟨hs.1, hs.2⟩)]
      rcases cv.convert with _ | ch
      · exact ⟨fun h => absurd h (by simp), fun h => absurd hs h⟩
      · exact ⟨fun h => absurd h (by simp), fun h => absurd hs h⟩
    · rw [CoordinateConverter.call, if_pos (by tauto)]
      exact ⟨fun _ => hs, fun _ => rfl⟩
  · intro a b cv E pts n hinit hsh hlen
    have hcv : ∃ ch, cv.convert = some ch := by
      cases a with
      | inr s =>
        rw [CoordinateConverter.init] at hinit
        rcases h1 : argOffsetE (Sum.inr s) with e | fo <;> rw [h1] at hinit
        · simp at hinit
        · simp [argOffsetE] at h1
      | inl f =>
        cases b with
        | inr s =>
          rw [CoordinateConverter.init] at hinit
          rcases h1 : argOffsetE (Sum.inl f) with e | fo <;> rw [h1] at hinit
          · simp at hinit
          dsimp only at hinit
          rcases h2 : argOffsetE (Sum.inr s) with e | go <;> rw [h2] at hinit
          · simp at hinit
          · simp [argOffsetE] at h2
        | inl t =>
          obtain ⟨fo, go, hf, ht, rfl⟩ := init_inl_inl_inv hinit
          obtain ⟨ch, hch⟩ := offsetE_ok_getConverter hf ht
          exact ⟨ch, hch⟩
    obtain ⟨ch, hch⟩ := hcv
    rw [CoordinateConverter.call, if_neg (by push_neg; constructor <;> simp [hsh]), hch]
    refine ⟨_, rfl, ?_⟩
    have hrows : (chunk3 pts.flat).length = n := chunk3_length hlen
    simp [Chain.run_length, hrows]

theorem converter_call_shape_witness :
    ((CoordinateConverter.mk (0, 0, 0) (0, 0, 0) (some (.pyproj ECEF_PROJ GEODETIC_PROJ))).call
        { pyproj := fun _ _ p => p, enu2ecef := fun p _ _ _ => p,
          ecef2enu := fun p _ _ _ => p, enu2geodetic := fun p _ _ _ => p,
          geodetic2enu := fun a b c _ _ _ => (a, b, c) }
        { shape := [2], flat := [1, 2] }
      = .error (.shapeError [2]))
    ∧ ∃ out,
      (CoordinateConverter.mk (0, 0, 0) (0, 0, 0) (some (.pyproj ECEF_PROJ GEODETIC_PROJ))).call
          { pyproj := fun _ _ p => p, enu2ecef := fun p _ _ _ => p,
            ecef2enu := fun p _ _ _ => p, enu2geodetic := fun p _ _ _ => p,
            geodetic2enu := fun a b c _ _ _ => (a, b, c) }
          { shape := [1, 3], flat := [1, 2, 3] }
        = .ok out ∧ out.shape = [1, 3] := by
  constructor
  · exact (converter_call_shape.1 _ _ _).mpr (by simp)
  · exact converter_call_shape.2
      (Sum.inl (Crs.gcc { offset := (0, 0, 0) }))
      (Sum.inl (Crs.gdc { offset := (0, 0, 0) })) _ _ _ 1 rfl rfl rfl

/-! ## C1 -/

/-- C1: a converter built from two CRS values captures both offsets at
construction time, and every call on a well-shaped batch computes
`chain(points + fromOffset) - toOffset`, where `chain` is the transform
selected by the decision table — uniformly, whichever chain was selected. -/
theorem converter_call_offsets :
    ∀ (f t : Crs) (cv : CoordinateConverter) (E : Engine) (pts : NDArray),
      CoordinateConverter.init (.inl f) (.inl t) = .ok cv →
      pts.shape.length = 2 → pts.shape.get? 1 = some 3 →
      ∃ fo go ch out,
        f.offsetE = .ok fo ∧ t.offsetE = .ok go
          ∧ cv.fromOffset = fo ∧ cv.toOffset = go
          ∧ getConverter f t = some ch
          ∧ out = (ch.run E ((chunk3 pts.flat).map fun p => addOff p fo)).map
              (fun p => subOff p go)
          ∧ cv.call E pts = .ok { shape := [out.length, 3], flat := flat3 out } := by
  intro f t cv E pts hinit h1 h2
  obtain ⟨fo, go, hf, ht, rfl⟩ := init_inl_inl_inv hinit
  obtain ⟨ch, hch⟩ := offsetE_ok_getConverter hf ht
  refine ⟨fo, go, ch, _, hf, ht, rfl, rfl, hch, rfl, ?_⟩
  rw [CoordinateConverter.call, if_neg (by push_neg; exact ⟨h1, h2⟩)]
  dsimp only
  rw [hch]

theorem converter_call_offsets_witness :
    ∃ fo go ch out,
      (Crs.gcc { offset := (1, 2, 3) }).offsetE = .ok fo
        ∧ (Crs.gdc { offset := (4, 5, 6) }).offsetE = .ok go
        ∧ (CoordinateConverter.mk (1, 2, 3) (4, 5, 6)
            (some (.pyproj ECEF_PROJ GEODETIC_PROJ))).fromOffset = fo
        ∧ (CoordinateConverter.mk (1, 2, 3) (4, 5, 6)
            (some (.pyproj ECEF_PROJ GEODETIC_PROJ))).toOffset = go
        ∧ getConverter (Crs.gcc { offset := (1, 2, 3) }) (Crs.gdc { offset := (4, 5, 6) })
            = some ch
        ∧ out = (ch.run
            { pyproj := fun _ _ p => p, enu2ecef := fun p _ _ _ => p,
              ecef2enu := fun p _ _ _ => p, enu2geodetic := fun p _ _ _ => p,
              geodetic2enu := fun a b c _ _ _ => (a, b, c) }
            ((chunk3 ({ shape := [1, 3], flat := [7, 8, 9] : NDArray}).flat).map
              fun p => addOff p fo)).map (fun p => subOff p go)
        ∧ (CoordinateConverter.mk (1, 2, 3) (4, 5, 6)
            (some (.pyproj ECEF_PROJ GEODETIC_PROJ))).call
            { pyproj := fun _ _ p => p, enu2ecef := fun p _ _ _ => p,
              ecef2enu := fun p _ _ _ => p, enu2geodetic := fun p _ _ _ => p,
              geodetic2enu := fun a b c _ _ _ => (a, b, c) }
            { shape := [1, 3], flat := [7, 8, 9] }
          = .ok { shape := [out.length, 3], flat := flat3 out } :=
  converter_call_offsets (Crs.gcc { offset := (1, 2, 3) }) (Crs.gdc { offset := (4, 5, 6) })
    _ _ _ rfl rfl rfl

/-! ## Character-class facts -/

theorem isDigit_ne {c : Char} (h : c.isDigit = true) :
    c ≠ '+' ∧ c ≠ '-' ∧ c ≠ '.' ∧ c ≠ ' ' ∧ c ≠ 'e' ∧ c ≠ 'E' := by
  refine ⟨?_, ?_, ?_, ?_, ?_, ?_⟩ <;>
    · intro heq
      rw [heq] at h
      exact absurd h (by decide)

/-! ## Maximal-munch lemmas for the lexers -/

theorem spanDigits_append {ds r : List Char} (hds : ∀ c ∈ ds, c.isDigit = true)
    (hr : ∀ c, r.head? = some c → c.isDigit = false) :
    spanDigits (ds ++ r) = (ds, r) := by
  induction ds with
  | nil =>
    cases r with
    | nil => rfl
    | cons c r2 => simp [spanDigits, hr c rfl]
  | cons d ds ih =>
    have hd : d.isDigit = true := hds d (List.mem_cons_self d ds)
    have ih2 := ih fun c hc => hds c (List.mem_cons_of_mem d hc)
    simp [spanDigits, hd, ih2]

theorem spanDigits_all {ds : List Char} (hds : ∀ c ∈ ds, c.isDigit = true) :
    spanDigits ds = (ds, []) := by
  have := spanDigits_append (r := []) hds (by simp)
  simpa using this

theorem sepTail_head_not_digit {r : List Char} (hr : SepTail r) :
    ∀ c, r.head? = some c → c.isDigit = false := by
  rcases hr with rfl | ⟨r2, rfl⟩
  · simp
  · intro c hc
    simp only [List.head?_cons, Option.some.injEq] at hc
    rw [← hc]
    decide

theorem lexMantissa_shape {m tail : List Char} (hm : MantShape m)
    (ht : ∀ c, tail.head? = some c → c.isDigit = false ∧ c ≠ '.') :
    lexMantissa (m ++ tail) = some (m, tail) := by
  have htd : ∀ c, tail.head? = some c → c.isDigit = false := fun c hc => (ht c hc).1
  rcases hm with ⟨fs, rfl, hne, hfs⟩ | ⟨ds, tl, rfl, hne, hds, htl⟩
  · have hspan : spanDigits (fs ++ tail) = (fs, tail) := spanDigits_append hfs htd
    simp [lexMantissa, hspan, hne]
  · rcases htl with rfl | ⟨fs, rfl, hfs⟩
    · simp only [List.append_nil]
      rcases ds with _ | ⟨d, ds2⟩
      · exact absurd rfl hne
      have hd : d.isDigit = true := hds d (List.mem_cons_self d ds2)
      have hspan : spanDigits (d :: (ds2 ++ tail)) = (d :: ds2, tail) := by
        rw [← List.cons_append]
        exact spanDigits_append hds htd
      simp only [List.cons_append, lexMantissa, hspan, if_neg (isDigit_ne hd).2.2.1]
      rcases tail with _ | ⟨c, r2⟩
      · simp
      · have hc := ht c (by simp)
        simp [hc.2]
    · rcases ds with _ | ⟨d, ds2⟩
      · exact absurd rfl hne
      have hd : d.isDigit = true := hds d (List.mem_cons_self d ds2)
      have hsp2 : spanDigits (fs ++ tail) = (fs, tail) := spanDigits_append hfs htd
      have hsp1 : spanDigits (d :: (ds2 ++ ('.' :: (fs ++ tail)))) = (d :: ds2, '.' :: (fs ++ tail)) := by
        rw [← List.cons_append]
        exact spanDigits_append hds (by intro c hc; simp at hc; rw [← hc]; decide)
      simp only [List.cons_append, List.append_assoc, lexMantissa,
        if_neg (isDigit_ne hd).2.2.1, hsp1, hsp2]
      simp

theorem lexExp_shape {e r : List Char} (he : ExpShape e) (hr : SepTail r) :
    lexExp (e ++ r) = (e, r) := by
  have hrd : ∀ c, r.head? = some c → c.isDigit = false := sepTail_head_not_digit hr
  rcases he with rfl | ⟨ec, sg, ds, rfl, hec, hsg, hdsne, hds⟩
  · rcases hr with rfl | ⟨r2, rfl⟩
    · rfl
    · simp [lexExp]
  · have hspan : spanDigits (ds ++ r) = (ds, r) := spanDigits_append hds hrd
    have hecp : ec = 'e' ∨ ec = 'E' := hec
    rcases hsg with rfl | rfl | rfl
    · rcases ds with _ | ⟨d, ds2⟩
      · exact absurd rfl hdsne
      have hd : d.isDigit = true := hds d (List.mem_cons_self d ds2)
      have hspan2 : spanDigits (d :: (ds2 ++ r)) = (d :: ds2, r) := by
        rw [← List.cons_append]
        exact hspan
      simp only [List.nil_append, List.cons_append, lexExp, if_pos hecp, hspan2]
      have h1 : ¬(d = '+' ∨ d = '-') := by
        rintro (rfl | rfl) <;> exact absurd hd (by decide)
      simp [h1]
    · simp only [List.cons_append, List.append_assoc, List.nil_append, lexExp,
        if_pos hecp]
      have hspan2 : spanDigits (ds ++ r) = (ds, r) := hspan
      simp [hspan2, hdsne]
    · simp only [List.cons_append, List.append_assoc, List.nil_append, lexExp,
        if_pos hecp]
      simp [hspan, hdsne]

theorem mantissa_head {m : List Char} (hm : MantShape m) :
    (∃ m2, m = '.' :: m2) ∨ (∃ c m2, m = c :: m2 ∧ c.isDigit = true) := by
  rcases hm with ⟨fs, rfl, hne, hfs⟩ | ⟨ds, tl, rfl, hne, hds, htl⟩
  · exact Or.inl ⟨fs, rfl⟩
  · rcases ds with _ | ⟨d, ds2⟩
    · exact absurd rfl hne
    · exact Or.inr ⟨d, ds2 ++ tl, rfl, hds d (List.mem_cons_self d ds2)⟩

theorem lexDecimal_shape {t r : List Char} (ht : DecShape t) (hr : SepTail r) :
    lexDecimal (t ++ r) = some (t, r) := by
  obtain ⟨sgn, m, e, rfl, hsgn, hm, he⟩ := ht
  have htail : ∀ c, (e ++ r).head? = some c → c.isDigit = false ∧ c ≠ '.' := by
    intro c hc
    rcases he with rfl | ⟨ec, sg, ds, rfl, hec, _, _, _⟩
    · rcases hr with rfl | ⟨r2, rfl⟩
      · simp at hc
      · simp only [List.nil_append, List.head?_cons, Option.some.injEq] at hc
        rw [← hc]
        exact ⟨by decide, by decide⟩
    · simp only [List.cons_append, List.head?_cons, Option.some.injEq] at hc
      rcases hec with rfl | rfl <;> rw [← hc] <;> exact ⟨by decide, by decide⟩
  have hmant : lexMantissa (m ++ (e ++ r)) = some (m, e ++ r) := lexMantissa_shape hm htail
  have hexp : lexExp (e ++ r) = (e, r) := lexExp_shape he hr
  have hhead := mantissa_head hm
  rcases hsgn with rfl | rfl | rfl
  · simp only [List.nil_append, List.append_assoc]
    rcases hhead with ⟨m2, rfl⟩ | ⟨c, m2, rfl, hcd⟩
    · simp only [List.cons_append] at hmant ⊢
      simp only [lexDecimal]
      rw [if_neg (by decide), hmant]
      simp [hexp]
    · simp only [List.cons_append] at hmant ⊢
      simp only [lexDecimal]
      rw [if_neg (by rintro (rfl | rfl) <;> exact absurd hcd (by decide)), hmant]
      simp [hexp]
  · simp only [List.cons_append, List.nil_append, List.append_assoc] at hmant ⊢
    simp only [lexDecimal]
    rw [if_pos (by simp), hmant]
    simp [hexp]
  · simp only [List.cons_append, List.nil_append, List.append_assoc] at hmant ⊢
    simp only [lexDecimal]
    rw [if_pos (by simp), hmant]
    simp [hexp]

theorem sepTail_nil : SepTail [] := Or.inl rfl

theorem sepTail_cons (r2 : List Char) : SepTail (' ' :: r2) := Or.inr ⟨r2, rfl⟩

theorem lexDecimal_whole {t : List Char} (ht : DecShape t) :
    lexDecimal t = some (t, []) := by
  have := lexDecimal_shape ht sepTail_nil
  simpa using this

theorem matchOptionalOffset_full {d1 d2 d3 : List Char}
    (h1 : DecShape d1) (h2 : DecShape d2) (h3 : DecShape d3) :
    matchOptionalOffset (' ' :: (d1 ++ ' ' :: (d2 ++ ' ' :: d3))) = some (d1, d2, d3) := by
  have e1 : lexDecimal (d1 ++ ' ' :: (d2 ++ ' ' :: d3)) = some (d1, ' ' :: (d2 ++ ' ' :: d3)) :=
    lexDecimal_shape h1 (sepTail_cons _)
  have e2 : lexDecimal (d2 ++ ' ' :: d3) = some (d2, ' ' :: d3) :=
    lexDecimal_shape h2 (sepTail_cons _)
  have e3 : lexDecimal d3 = some (d3, []) := lexDecimal_whole h3
  simp [matchOptionalOffset, expectChar, e1, e2, e3]

theorem matchOptionalOffset_shortTail {r : List Char} (h : ShortOffsetTail r) :
    matchOptionalOffset r = none := by
  rcases h with ⟨d1, h1, rfl⟩ | ⟨d1, d2, h1, h2, rfl⟩
  · have e1 : lexDecimal d1 = some (d1, []) := lexDecimal_whole h1
    simp [matchOptionalOffset, expectChar, e1]
  · have e1 : lexDecimal (d1 ++ ' ' :: d2) = some (d1, ' ' :: d2) :=
      lexDecimal_shape h1 (sepTail_cons _)
    have e2 : lexDecimal d2 = some (d2, []) := lexDecimal_whole h2
    simp [matchOptionalOffset, expectChar, e1, e2]

/-! ## C3 -/

/-- C3 counterexample: a keyword followed by only two offset numbers does not
raise `CrsDefError`; `re.match` simply leaves the trailing text unconsumed,
and the parse succeeds with a zero offset. -/
theorem short_offset_counterexample :
    Geocentric.fromStr "GCC 1 2" = .ok { offset := (0, 0, 0) }
      ∧ LocalTangentPlane.fromStr "ENU 10 20 30 1 2"
        = .ok { lon := 10, lat := 20, alt := 30, offset := (0, 0, 0) } := by
  constructor
  · have hm : Geocentric.srepMatch "GCC 1 2".toList = some none := by decide
    rw [Geocentric.fromStr, hm]
    rfl
  · have hm : LocalTangentPlane.srepMatch "ENU 10 20 30 1 2".toList
        = some ((['1', '0'], ['2', '0'], ['3', '0']), none) := by decide
    rw [LocalTangentPlane.fromStr, hm]
    simp only [Except.ok.injEq, LocalTangentPlane.mk.injEq, offsetVal]
    refine ⟨?_, ?_, ?_, trivial⟩
    · exact pyFloat_intTok (by decide) (by decide) (by decide)
    · exact pyFloat_intTok (by decide) (by decide) (by decide)
    · exact pyFloat_intTok (by decide) (by decide) (by decide)

theorem shortOffsetTail_sepTail {r : List Char} (h : ShortOffsetTail r) : SepTail r := by
  rcases h with ⟨d1, _, rfl⟩ | ⟨d1, d2, _, _, rfl⟩
  · exact sepTail_cons _
  · exact sepTail_cons _

/-- C3 (amended): a CRS string whose keyword and required fields are followed
by only one or two offset numbers does not fail — the all-or-nothing offset
group matches empty, the trailing partial offset is left unconsumed by
`re.match`, and the parse succeeds with offset `(0.0, 0.0, 0.0)` (stated for
each of the four keyword grammars). -/
theorem trailing_offsets_ignored :
    (∀ cs r : List Char, stripKeywordCI gccKeywords cs = some r → ShortOffsetTail r →
        Geocentric.fromStr (String.mk cs) = .ok { offset := (0, 0, 0) })
    ∧ (∀ cs r : List Char, stripKeywordCI gdcKeywords cs = some r → ShortOffsetTail r →
        Geodetic.fromStr (String.mk cs) = .ok { offset := (0, 0, 0) })
    ∧ (∀ (cs r t1 t2 t3 rest : List Char),
        stripKeywordCI ltpKeywords cs = some r →
        DecShape t1 → DecShape t2 → DecShape t3 → ShortOffsetTail rest →
        r = ' ' :: (t1 ++ ' ' :: (t2 ++ ' ' :: (t3 ++ rest))) →
        LocalTangentPlane.fromStr (String.mk cs)
          = .ok { lon := pyFloat t1, lat := pyFloat t2, alt := pyFloat t3,
                  offset := (0, 0, 0) })
    ∧ (∀ (cs r zr rest zcs : List Char) (hc : Char),
        stripKeywordCI utmKeywords cs = some r →
        r = ' ' :: zr →
        utmZoneHemi zr = some (zcs, hc, rest) →
        ShortOffsetTail rest →
        Utm.fromStr (String.mk cs)
          = .ok { zone := (digitsVal zcs : ℤ), south := decide (hc.toUpper ≤ 'M'),
                  offset := (0, 0, 0) }) := by
  refine ⟨?_, ?_, ?_, ?_⟩
  · intro cs r hk hp
    have hm : Geocentric.srepMatch cs = some none := by
      simp only [Geocentric.srepMatch, hk, matchOptionalOffset_shortTail hp]
    rw [Geocentric.fromStr]
    rw [show (String.mk cs).toList = cs from rfl, hm]
    rfl
  · intro cs r hk hp
    have hm : Geodetic.srepMatch cs = some none := by
      simp only [Geodetic.srepMatch, hk, matchOptionalOffset_shortTail hp]
    rw [Geodetic.fromStr]
    rw [show (String.mk cs).toList = cs from rfl, hm]
    rfl
  · intro cs r t1 t2 t3 rest hk h1 h2 h3 hp hr
    subst hr
    have e1 : lexDecimal (t1 ++ ' ' :: (t2 ++ ' ' :: (t3 ++ rest)))
        = some (t1, ' ' :: (t2 ++ ' ' :: (t3 ++ rest))) :=
      lexDecimal_shape h1 (sepTail_cons _)
    have e2 : lexDecimal (t2 ++ ' ' :: (t3 ++ rest)) = some (t2, ' ' :: (t3 ++ rest)) :=
      lexDecimal_shape h2 (sepTail_cons _)
    have e3 : lexDecimal (t3 ++ rest) = some (t3, rest) :=
      lexDecimal_shape h3 (shortOffsetTail_sepTail hp)
    have hm : LocalTangentPlane.srepMatch cs = some ((t1, t2, t3), none) := by
      simp only [LocalTangentPlane.srepMatch, hk, expectChar, if_pos, e1, e2, e3,
        matchOptionalOffset_shortTail hp]
    rw [LocalTangentPlane.fromStr]
    rw [show (String.mk cs).toList = cs from rfl, hm]
    rfl
  · intro cs r zr rest zcs hc hk hr hz hp
    subst hr
    have hm : Utm.srepMatch cs = some (zcs, hc, none) := by
      simp only [Utm.srepMatch, hk, expectChar, if_pos, hz,
        matchOptionalOffset_shortTail hp]
    rw [Utm.fromStr]
    rw [show (String.mk cs).toList = cs from rfl, hm]
    rfl

theorem trailing_offsets_ignored_witness :
    Geocentric.fromStr (String.mk "GCC 1 2".toList) = .ok { offset := (0, 0, 0) } := by
  refine trailing_offsets_ignored.1 "GCC 1 2".toList [' ', '1', ' ', '2'] (by decide) ?_
  exact Or.inr ⟨['1'], ['2'],
    ⟨[], ['1'], [], rfl, Or.inl rfl,
      Or.inr ⟨['1'], [], by simp, by simp, by intro c hc; simp at hc; rw [hc]; rfl, Or.inl rfl⟩,
      Or.inl rfl⟩,
    ⟨[], ['2'], [], rfl, Or.inl rfl,
      Or.inr ⟨['2'], [], by simp, by simp, by intro c hc; simp at hc; rw [hc]; rfl, Or.inl rfl⟩,
      Or.inl rfl⟩,
    rfl⟩

/-! ## Digit-string value lemmas -/

theorem digitsVal_go (a : ℕ) (cs : List Char) :
    cs.foldl (fun a c => 10 * a + (c.toNat - 48)) a
      = a * 10 ^ cs.length + digitsVal cs := by
  induction cs generalizing a with
  | nil => simp [digitsVal]
  | cons c cs ih =>
    show (cs.foldl _ (10 * a + (c.toNat - 48))) = _
    rw [ih]
    have h2 : digitsVal (c :: cs) = (c.toNat - 48) * 10 ^ cs.length + digitsVal cs := by
      show (cs.foldl _ (10 * 0 + (c.toNat - 48))) = _
      rw [ih]
      norm_num
    rw [h2, List.length_cons, pow_succ]
    ring

theorem digitsVal_append (xs ys : List Char) :
    digitsVal (xs ++ ys) = digitsVal xs * 10 ^ ys.length + digitsVal ys := by
  show (xs ++ ys).foldl _ 0 = _
  rw [List.foldl_append]
  exact digitsVal_go _ ys

theorem digitsVal_replicate_zero (j : ℕ) :
    digitsVal (List.replicate j '0') = 0 := by
  induction j with
  | zero => rfl
  | succ j ih =>
    have h0 : (10 * 0 + ('0'.toNat - 48)) = 0 := by decide
    show (List.replicate j '0').foldl _ (10 * 0 + ('0'.toNat - 48)) = 0
    rw [h0]
    exact ih

theorem digitsVal_padZeros (k : ℕ) (cs : List Char) :
    digitsVal (padZeros k cs) = digitsVal cs := by
  rw [padZeros, digitsVal_append, digitsVal_replicate_zero]
  simp

theorem padZeros_length {k : ℕ} {cs : List Char} (h : cs.length ≤ k) :
    (padZeros k cs).length = k := by
  simp [padZeros]
  omega

theorem padZeros_digits {k : ℕ} {cs : List Char} (h : ∀ c ∈ cs, c.isDigit = true) :
    ∀ c ∈ padZeros k cs, c.isDigit = true := by
  intro c hc
  rw [padZeros, List.mem_append] at hc
  rcases hc with hc | hc
  · rw [List.eq_of_mem_replicate hc]
    decide
  · exact h c hc

/-! ## Decimal digits of a natural number -/

theorem natDigitsAux_lt (fuel n : ℕ) : ∀ d ∈ natDigitsAux fuel n, d < 10 := by
  induction fuel generalizing n with
  | zero => simp [natDigitsAux]
  | succ fuel ih =>
    intro d hd
    rw [natDigitsAux] at hd
    split_ifs at hd with h
    · simp at hd
    · rcases List.mem_cons.mp hd with rfl | hd2
      · omega
      · exact ih _ d hd2

theorem natDigitsAux_val {fuel n : ℕ} (h : n ≤ fuel) :
    digitsVal (((natDigitsAux fuel n).reverse).map fun d => Char.ofNat (48 + d)) = n := by
  induction fuel generalizing n with
  | zero =>
    have : n = 0 := by omega
    subst this
    rfl
  | succ fuel ih =>
    rw [natDigitsAux]
    split_ifs with h0
    · subst h0
      rfl
    · have hrec : n / 10 ≤ fuel := by
        have : n / 10 < n := Nat.div_lt_self (by omega) (by omega)
        omega
      rw [List.reverse_cons, List.map_append, digitsVal_append]
      rw [ih hrec]
      have hd : (n % 10) < 10 := by omega
      have hchar : ∀ d, d < 10 →
          digitsVal [Char.ofNat (48 + d)] = d ∧ (Char.ofNat (48 + d)).isDigit = true := by
        decide
      simp only [List.map_cons, List.map_nil, List.length_cons, List.length_nil,
        (hchar _ hd).1]
      have := Nat.div_add_mod n 10
      omega

theorem natDecChars_val (n : ℕ) : digitsVal (natDecChars n) = n := by
  rw [natDecChars]
  split_ifs with h
  · subst h
    rfl
  · exact natDigitsAux_val le_rfl

theorem natDecChars_digits (n : ℕ) : ∀ c ∈ natDecChars n, c.isDigit = true := by
  rw [natDecChars]
  split_ifs with h
  · intro c hc
    simp at hc
    rw [hc]
    decide
  · intro c hc
    simp only [List.mem_map, List.mem_reverse] at hc
    obtain ⟨d, hd, rfl⟩ := hc
    have hlt : d < 10 := natDigitsAux_lt n n d hd
    have hh : ∀ d, d < 10 → (Char.ofNat (48 + d)).isDigit = true := by decide
    exact hh d hlt

theorem natDecChars_ne_nil (n : ℕ) : natDecChars n ≠ [] := by
  rw [natDecChars]
  split_ifs with h
  · simp
  · intro hcon
    simp only [List.map_eq_nil_iff, List.reverse_eq_nil_iff] at hcon
    rcases n with _ | n2
    · exact h rfl
    · rw [natDigitsAux] at hcon
      simp [h] at hcon

theorem natDigitsAux_length {fuel n k : ℕ} (hf : n ≤ fuel) (h : n < 10 ^ k) :
    (natDigitsAux fuel n).length ≤ k := by
  induction fuel generalizing n k with
  | zero => simp [natDigitsAux]
  | succ fuel ih =>
    rw [natDigitsAux]
    split_ifs with h0
    · simp
    · rcases k with _ | k2
      · simp at h
        omega
      · have hrec : n / 10 ≤ fuel := by
          have : n / 10 < n := Nat.div_lt_self (by omega) (by omega)
          omega
        have hlt : n / 10 < 10 ^ k2 := by
          rw [Nat.div_lt_iff_lt_mul (by omega)]
          calc n < 10 ^ (k2 + 1) := h
          _ = 10 ^ k2 * 10 := by ring
        have := ih hrec hlt
        simp only [List.length_cons]
        omega

theorem natDecChars_length {n k : ℕ} (hk : 1 ≤ k) (h : n < 10 ^ k) :
    (natDecChars n).length ≤ k := by
  rw [natDecChars]
  split_ifs with h0
  · simpa using hk
  · rw [List.length_map, List.length_reverse]
    exact natDigitsAux_length le_rfl h

/-! ## The decimal exponent chosen by the formatter -/

theorem dvd_ten_pow_self {n K : ℕ} (hn : n ≠ 0) (h : n ∣ 10 ^ K) : n ∣ 10 ^ n := by
  have h10 : (10 : ℕ) ^ K ≠ 0 := by positivity
  have h10n : (10 : ℕ) ^ n ≠ 0 := by positivity
  rw [← Nat.factorization_le_iff_dvd hn h10n]
  have hK := (Nat.factorization_le_iff_dvd hn h10).mpr h
  rw [Nat.factorization_pow] at hK ⊢
  rw [Finsupp.le_def] at hK ⊢
  intro p
  have hp := hK p
  rw [Finsupp.smul_apply, smul_eq_mul] at hp ⊢
  rcases Nat.eq_zero_or_pos ((10 : ℕ).factorization p) with h0 | hpos
  · rw [h0] at hp ⊢
    omega
  · have hlt := Nat.factorization_lt p hn
    calc n.factorization p ≤ n := by omega
    _ ≤ n * (10 : ℕ).factorization p := Nat.le_mul_of_pos_right n hpos

theorem den_mul_pow_den_one {q : ℚ} {j : ℕ} (h : q.den ∣ 10 ^ j) :
    (q * 10 ^ j).den = 1 := by
  have hdvd : (q.den : ℤ) ∣ q.num * 10 ^ j := by
    apply Dvd.dvd.mul_left
    have := Int.natCast_dvd_natCast.mpr h
    push_cast at this
    exact this
  have hden : (q.den : ℚ) ≠ 0 := by positivity
  have hq : q * 10 ^ j = ((q.num * 10 ^ j / q.den : ℤ) : ℚ) := by
    rw [Int.cast_div_charZero hdvd]
    push_cast
    conv_lhs => rw [← Rat.num_div_den q]
    ring
  rw [hq, Rat.den_intCast]

theorem decVal_den_dvd {q : ℚ} (h : DecVal q) : ∃ K, q.den ∣ 10 ^ K := by
  obtain ⟨m, k, rfl⟩ := h
  refine ⟨k, ?_⟩
  have h1 : ((m : ℚ) / 10 ^ k) = Rat.divInt m (10 ^ k) := by
    rw [Rat.divInt_eq_div]
    push_cast
    ring
  rw [h1]
  have h2 := Rat.den_dvd m (10 ^ k)
  have h3 : ((Rat.divInt m (10 ^ k)).den : ℤ) ∣ ((10 ^ k : ℕ) : ℤ) := by
    push_cast
    exact h2
  exact_mod_cast h3

theorem decExpAux_finds {q : ℚ} : ∀ (fuel k : ℕ),
    (∃ j, j < fuel ∧ (q * 10 ^ (k + j)).den = 1) →
    (q * 10 ^ decExpAux q fuel k).den = 1 := by
  intro fuel
  induction fuel with
  | zero =>
    rintro k ⟨j, hj, _⟩
    omega
  | succ fuel ih =>
    rintro k ⟨j, hj, hd⟩
    rw [decExpAux]
    split_ifs with h
    · exact h
    · apply ih
      rcases Nat.eq_zero_or_pos j with rfl | hpos
      · rw [Nat.add_zero] at hd
        exact absurd hd h
      · exact ⟨j - 1, by omega, by rw [show k + 1 + (j - 1) = k + j by omega]; exact hd⟩

theorem decExp_den {q : ℚ} (h : DecVal q) : (q * 10 ^ decExp q).den = 1 := by
  obtain ⟨K, hK⟩ := decVal_den_dvd h
  have hself : q.den ∣ 10 ^ q.den := dvd_ten_pow_self (Rat.den_pos q).ne' hK
  rw [decExp]
  apply decExpAux_finds
  exact ⟨q.den, by omega, by rw [Nat.zero_add]; exact den_mul_pow_den_one hself⟩

/-! ## Parsing formatter output -/

theorem pyFloat_decShape {neg : Bool} {ds fs : List Char}
    (hds : ds ≠ []) (hds2 : ∀ c ∈ ds, c.isDigit = true)
    (hfs : ∀ c ∈ fs, c.isDigit = true) :
    pyFloat ((if neg then ['-'] else []) ++ (ds ++ '.' :: fs))
      = (if neg then -1 else 1) * ((digitsVal (ds ++ fs) : ℚ) / 10 ^ fs.length) := by
  have hsp1 : spanDigits (ds ++ '.' :: fs) = (ds, '.' :: fs) :=
    spanDigits_append hds2 (by intro c hc; simp at hc; rw [← hc]; decide)
  have hsp2 : spanDigits fs = (fs, []) := spanDigits_all hfs
  have hsf : splitFrac ('.' :: fs) = (fs, []) := by simp [splitFrac, hsp2]
  have hsign : splitSign ((if neg then ['-'] else []) ++ (ds ++ '.' :: fs))
      = (neg, ds ++ '.' :: fs) := by
    cases neg
    · rcases ds with _ | ⟨d, ds2⟩
      · exact absurd rfl hds
      have hne := isDigit_ne (hds2 d (List.mem_cons_self d ds2))
      simp [splitSign, hne.1, hne.2.1]
    · simp [splitSign]
  simp only [pyFloat, hsign, hsp1, hsf, expValOf]
  simp

theorem pyFloatChars_decShape (q : ℚ) : DecShape (pyFloatChars q) := by
  refine ⟨if q < 0 then ['-'] else [],
    natDecChars ((q * 10 ^ decExp q).num.natAbs / 10 ^ decExp q)
      ++ '.' :: (if decExp q = 0 then ['0']
        else padZeros (decExp q) (natDecChars ((q * 10 ^ decExp q).num.natAbs % 10 ^ decExp q))),
    [], ?_, ?_, ?_, Or.inl rfl⟩
  · rw [List.append_nil]
    simp only [pyFloatChars, List.append_assoc]
  · split_ifs
    · exact Or.inr (Or.inr rfl)
    · exact Or.inl rfl
  · refine Or.inr ⟨natDecChars _, '.' :: _, rfl, natDecChars_ne_nil _,
      natDecChars_digits _, Or.inr ⟨_, rfl, ?_⟩⟩
    split_ifs with hk
    · intro c hc
      simp at hc
      rw [hc]
      decide
    · exact padZeros_digits (natDecChars_digits _)

theorem frac_value {n k : ℕ} :
    ((digitsVal (natDecChars (n / 10 ^ k)
        ++ (if k = 0 then ['0'] else padZeros k (natDecChars (n % 10 ^ k)))) : ℚ)
      / 10 ^ (if k = 0 then ['0']
          else padZeros k (natDecChars (n % 10 ^ k))).length)
      = (n : ℚ) / 10 ^ k := by
  split_ifs with hk
  · subst hk
    rw [digitsVal_append]
    have h1 : digitsVal ['0'] = 0 := by decide
    rw [h1, natDecChars_val]
    simp only [pow_zero, Nat.div_one, List.length_cons, List.length_nil, pow_one,
      Nat.add_zero, div_one]
    push_cast
    field_simp
  · have hlt : n % 10 ^ k < 10 ^ k := Nat.mod_lt n (by positivity)
    have hlen : (padZeros k (natDecChars (n % 10 ^ k))).length = k :=
      padZeros_length (natDecChars_length (by omega) hlt)
    rw [digitsVal_append, hlen, digitsVal_padZeros, natDecChars_val, natDecChars_val]
    have hdm : n / 10 ^ k * 10 ^ k + n % 10 ^ k = n := by
      have h2 := Nat.div_add_mod n (10 ^ k)
      rw [Nat.mul_comm] at h2
      exact h2
    rw [hdm]

theorem pyFloat_pyFloatChars {q : ℚ} (h : (q * 10 ^ decExp q).den = 1) :
    pyFloat (pyFloatChars q) = q := by
  have hqm : ((q * 10 ^ decExp q).num : ℚ) = q * 10 ^ decExp q :=
    (Rat.den_eq_one_iff _).mp h
  have hpow : (0 : ℚ) < 10 ^ decExp q := by positivity
  have hq : q = ((q * 10 ^ decExp q).num : ℚ) / 10 ^ decExp q := by
    rw [hqm]
    field_simp
  have hsign_iff : q < 0 ↔ (q * 10 ^ decExp q).num < 0 := by
    constructor
    · intro hlt
      have h2 : q * 10 ^ decExp q < 0 := by nlinarith
      rw [← hqm] at h2
      exact_mod_cast h2
    · intro hlt
      have h2 : ((q * 10 ^ decExp q).num : ℚ) < 0 := by exact_mod_cast hlt
      rw [hqm] at h2
      nlinarith
  have hshape : pyFloatChars q = (if decide (q < 0) = true then ['-'] else [])
      ++ (natDecChars ((q * 10 ^ decExp q).num.natAbs / 10 ^ decExp q)
        ++ '.' :: (if decExp q = 0 then ['0']
          else padZeros (decExp q)
            (natDecChars ((q * 10 ^ decExp q).num.natAbs % 10 ^ decExp q)))) := by
    simp only [pyFloatChars, decide_eq_true_eq, List.append_assoc]
  rw [hshape, pyFloat_decShape (natDecChars_ne_nil _) (natDecChars_digits _) ?hfs]
  case hfs =>
    split_ifs with hk
    · intro c hc
      simp at hc
      rw [hc]
      decide
    · exact padZeros_digits (natDecChars_digits _)
  rw [frac_value]
  by_cases hneg : q < 0
  · have hm : (q * 10 ^ decExp q).num < 0 := hsign_iff.mp hneg
    rw [if_pos (by simpa using hneg)]
    have habs : ((q * 10 ^ decExp q).num.natAbs : ℚ) = -((q * 10 ^ decExp q).num : ℚ) := by
      have h0 : ((q * 10 ^ decExp q).num.natAbs : ℚ) = ((|(q * 10 ^ decExp q).num| : ℤ) : ℚ) :=
        Int.cast_natAbs
      rw [h0, abs_of_neg hm]
      push_cast
      ring
    rw [habs, hqm]
    field_simp
  · have hm : ¬((q * 10 ^ decExp q).num < 0) := fun hc => hneg (hsign_iff.mpr hc)
    rw [if_neg (by simpa using hneg)]
    have hm2 : 0 ≤ (q * 10 ^ decExp q).num := by omega
    have habs : ((q * 10 ^ decExp q).num.natAbs : ℚ) = ((q * 10 ^ decExp q).num : ℚ) := by
      have h0 : ((q * 10 ^ decExp q).num.natAbs : ℚ) = ((|(q * 10 ^ decExp q).num| : ℤ) : ℚ) :=
        Int.cast_natAbs
      rw [h0, abs_of_nonneg hm2]
    rw [habs, hqm]
    field_simp

/-! ## Every parsed float is a decimal value -/

theorem decVal_of_parts (neg : Bool) (dv L : ℕ) (e : ℤ) :
    DecVal ((if neg then (-1 : ℚ) else 1) * ((dv : ℚ) / 10 ^ L) * 10 ^ e) := by
  rcases e with a | b
  · refine ⟨(if neg then -1 else 1) * dv * 10 ^ a, L, ?_⟩
    rw [Int.ofNat_eq_natCast, zpow_natCast]
    cases neg <;> push_cast <;> ring
  · refine ⟨(if neg then -1 else 1) * dv, L + b + 1, ?_⟩
    rw [zpow_negSucc]
    cases neg <;> push_cast <;> field_simp <;>
      exact Or.inl (by rw [pow_succ, pow_add]; ring)

theorem pyFloat_decVal (t : List Char) : DecVal (pyFloat t) := by
  rw [pyFloat]
  exact decVal_of_parts _ _ _ _

theorem decVal_zero : DecVal 0 := ⟨0, 0, by norm_num⟩

theorem offsetVal_decValT (off : Option (List Char × List Char × List Char)) :
    DecValT (offsetVal off) := by
  rcases off with _ | ⟨a, b, c⟩
  · exact ⟨decVal_zero, decVal_zero, decVal_zero⟩
  · exact ⟨pyFloat_decVal a, pyFloat_decVal b, pyFloat_decVal c⟩

/-! ## Reparsing canonical stringifications -/

theorem stripKeyword_gcc_toStr (rest : List Char) :
    stripKeywordCI gccKeywords ('G' :: 'C' :: 'C' :: rest) = some rest := rfl

theorem stripKeyword_gdc_toStr (rest : List Char) :
    stripKeywordCI gdcKeywords ('G' :: 'D' :: 'C' :: rest) = some rest := rfl

theorem stripKeyword_enu_toStr (rest : List Char) :
    stripKeywordCI ltpKeywords ('E' :: 'N' :: 'U' :: rest) = some rest := rfl

theorem stripKeyword_utm_toStr (rest : List Char) :
    stripKeywordCI utmKeywords ('U' :: 'T' :: 'M' :: rest) = some rest := rfl

theorem expectChar_space (rest : List Char) :
    expectChar ' ' (' ' :: rest) = some rest := rfl

theorem getOffsetStrChars_sepTail (o : ℚ × ℚ × ℚ) : SepTail (getOffsetStrChars o) := by
  rw [getOffsetStrChars]
  split_ifs
  · exact sepTail_cons _
  · exact sepTail_nil

theorem offsetVal_reparse {o : ℚ × ℚ × ℚ} (h : DecValT o) :
    offsetVal (matchOptionalOffset (getOffsetStrChars o)) = o := by
  rw [getOffsetStrChars]
  split_ifs with h0
  · rw [matchOptionalOffset_full (pyFloatChars_decShape _) (pyFloatChars_decShape _)
      (pyFloatChars_decShape _)]
    show (pyFloat (pyFloatChars o.1), pyFloat (pyFloatChars o.2.1),
      pyFloat (pyFloatChars o.2.2)) = o
    rw [pyFloat_pyFloatChars (decExp_den h.1), pyFloat_pyFloatChars (decExp_den h.2.1),
      pyFloat_pyFloatChars (decExp_den h.2.2)]
  · have ho : o = (0, 0, 0) := not_not.mp h0
    rw [ho]
    rfl

theorem Geocentric.reparse_gcc {v : Geocentric} (h : DecValT v.offset) :
    Geocentric.fromStr v.toStr = .ok v := by
  obtain ⟨o⟩ := v
  have hlist : (Geocentric.toStr ⟨o⟩).toList = 'G' :: 'C' :: 'C' :: getOffsetStrChars o := rfl
  rw [Geocentric.fromStr, hlist]
  have hm : Geocentric.srepMatch ('G' :: 'C' :: 'C' :: getOffsetStrChars o)
      = some (matchOptionalOffset (getOffsetStrChars o)) := by
    simp only [Geocentric.srepMatch, stripKeyword_gcc_toStr]
  rw [hm]
  simp only [Except.ok.injEq, Geocentric.mk.injEq]
  exact offsetVal_reparse h

theorem Geodetic.reparse_gdc {v : Geodetic} (h : DecValT v.offset) :
    Geodetic.fromStr v.toStr = .ok v := by
  obtain ⟨o⟩ := v
  have hlist : (Geodetic.toStr ⟨o⟩).toList = 'G' :: 'D' :: 'C' :: getOffsetStrChars o := rfl
  rw [Geodetic.fromStr, hlist]
  have hm : Geodetic.srepMatch ('G' :: 'D' :: 'C' :: getOffsetStrChars o)
      = some (matchOptionalOffset (getOffsetStrChars o)) := by
    simp only [Geodetic.srepMatch, stripKeyword_gdc_toStr]
  rw [hm]
  simp only [Except.ok.injEq, Geodetic.mk.injEq]
  exact offsetVal_reparse h

theorem LocalTangentPlane.reparse_ltp {v : LocalTangentPlane}
    (hlon : DecVal v.lon) (hlat : DecVal v.lat) (halt : DecVal v.alt)
    (hoff : DecValT v.offset) :
    LocalTangentPlane.fromStr v.toStr = .ok v := by
  obtain ⟨lon, lat, alt, o⟩ := v
  have hlist : (LocalTangentPlane.toStr ⟨lon, lat, alt, o⟩).toList
      = 'E' :: 'N' :: 'U' :: ' ' :: (pyFloatChars lon ++ ' ' :: (pyFloatChars lat
        ++ ' ' :: (pyFloatChars alt ++ getOffsetStrChars o))) := rfl
  rw [LocalTangentPlane.fromStr, hlist]
  have e1 : lexDecimal (pyFloatChars lon ++ ' ' :: (pyFloatChars lat
      ++ ' ' :: (pyFloatChars alt ++ getOffsetStrChars o)))
      = some (pyFloatChars lon, ' ' :: (pyFloatChars lat
        ++ ' ' :: (pyFloatChars alt ++ getOffsetStrChars o))) :=
    lexDecimal_shape (pyFloatChars_decShape _) (sepTail_cons _)
  have e2 : lexDecimal (pyFloatChars lat ++ ' ' :: (pyFloatChars alt ++ getOffsetStrChars o))
      = some (pyFloatChars lat, ' ' :: (pyFloatChars alt ++ getOffsetStrChars o)) :=
    lexDecimal_shape (pyFloatChars_decShape _) (sepTail_cons _)
  have e3 : lexDecimal (pyFloatChars alt ++ getOffsetStrChars o)
      = some (pyFloatChars alt, getOffsetStrChars o) :=
    lexDecimal_shape (pyFloatChars_decShape _) (getOffsetStrChars_sepTail o)
  have hm : LocalTangentPlane.srepMatch ('E' :: 'N' :: 'U' :: ' ' :: (pyFloatChars lon
      ++ ' ' :: (pyFloatChars lat ++ ' ' :: (pyFloatChars alt ++ getOffsetStrChars o))))
      = some ((pyFloatChars lon, pyFloatChars lat, pyFloatChars alt),
          matchOptionalOffset (getOffsetStrChars o)) := by
    simp only [LocalTangentPlane.srepMatch, stripKeyword_enu_toStr, expectChar_space,
      e1, e2, e3]
  rw [hm]
  simp only [Except.ok.injEq, LocalTangentPlane.mk.injEq]
  exact ⟨pyFloat_pyFloatChars (decExp_den hlon), pyFloat_pyFloatChars (decExp_den hlat),
    pyFloat_pyFloatChars (decExp_den halt), offsetVal_reparse hoff⟩

theorem natDecChars_structure {n : ℕ} (h : n ≤ 99) :
    (∃ c, natDecChars n = [c] ∧ c.isDigit = true)
      ∨ (∃ c1 c2, natDecChars n = [c1, c2] ∧ c1.isDigit = true ∧ c2.isDigit = true) := by
  have hlen : (natDecChars n).length ≤ 2 := natDecChars_length (by omega) (by omega)
  have hne := natDecChars_ne_nil n
  have hdig := natDecChars_digits n
  rcases hl : natDecChars n with _ | ⟨c1, _ | ⟨c2, _ | ⟨c3, rest⟩⟩⟩
  · exact absurd hl hne
  · exact Or.inl ⟨c1, rfl, hdig c1 (by rw [hl]; exact List.mem_cons_self _ _)⟩
  · exact Or.inr ⟨c1, c2, rfl, hdig c1 (by rw [hl]; simp), hdig c2 (by rw [hl]; simp)⟩
  · rw [hl] at hlen
    simp at hlen

theorem utmZoneHemi_reparse {zcs : List Char} {hl : Char} {rest : List Char}
    (hz : (∃ c, zcs = [c] ∧ c.isDigit = true)
      ∨ (∃ c1 c2, zcs = [c1, c2] ∧ c1.isDigit = true ∧ c2.isDigit = true))
    (hhl : hl.isDigit = false) (hw : isWordChar hl = true) :
    utmZoneHemi (zcs ++ hl :: rest) = some (zcs, hl, rest) := by
  rcases hz with ⟨c, rfl, hd⟩ | ⟨c1, c2, rfl, hd1, hd2⟩
  · rcases rest with _ | ⟨r, rs⟩
    · show utmZoneHemi [c, hl] = _
      rw [utmZoneHemi]
      rw [if_pos ⟨hd, hw⟩]
    · show utmZoneHemi (c :: hl :: r :: rs) = _
      rw [utmZoneHemi, if_pos hd, if_neg (by rw [hhl]; simp), if_pos hw]
  · show utmZoneHemi (c1 :: c2 :: hl :: rest) = _
    rw [utmZoneHemi, if_pos hd1, if_pos ⟨hd2, hw⟩]

theorem Utm.reparse_utm {v : Utm} (hz0 : 0 ≤ v.zone) (hz99 : v.zone ≤ 99)
    (hoff : DecValT v.offset) :
    ∃ v2, Utm.fromStr v.toStr = .ok v2 ∧ v2.offset = v.offset ∧ v2.zone = v.zone := by
  obtain ⟨z, s, o⟩ := v
  obtain ⟨zn, rfl⟩ := Int.eq_ofNat_of_zero_le hz0
  have hzn : zn ≤ 99 := by
    have h2 : ((zn : ℤ)) ≤ 99 := hz99
    exact_mod_cast h2
  have hint : intDecChars (zn : ℤ) = natDecChars zn := by
    rw [intDecChars, if_neg (by omega)]
    simp
  have hlet : (if s then 'S' else 'N').isDigit = false ∧ isWordChar (if s then 'S' else 'N') = true
      ∧ ((if s then 'S' else 'N').toUpper ≤ 'M') = False := by
    cases s <;> exact ⟨by decide, by decide, eq_false (by decide)⟩
  have hlist : (Utm.toStr ⟨(zn : ℤ), s, o⟩).toList
      = 'U' :: 'T' :: 'M' :: ' ' :: (natDecChars zn
        ++ (if s then 'S' else 'N') :: getOffsetStrChars o) := by
    show ('U' :: 'T' :: 'M' :: ' ' :: (intDecChars (zn : ℤ)
      ++ (if s then 'S' else 'N') :: getOffsetStrChars o)) = _
    rw [hint]
  have hzh : utmZoneHemi (natDecChars zn ++ (if s then 'S' else 'N') :: getOffsetStrChars o)
      = some (natDecChars zn, (if s then 'S' else 'N'), getOffsetStrChars o) :=
    utmZoneHemi_reparse (natDecChars_structure hzn) hlet.1 hlet.2.1
  have hm : Utm.srepMatch ('U' :: 'T' :: 'M' :: ' ' :: (natDecChars zn
      ++ (if s then 'S' else 'N') :: getOffsetStrChars o))
      = some (natDecChars zn, (if s then 'S' else 'N'),
          matchOptionalOffset (getOffsetStrChars o)) := by
    simp only [Utm.srepMatch, stripKeyword_utm_toStr, expectChar_space, hzh]
  refine ⟨⟨(digitsVal (natDecChars zn) : ℤ),
      decide ((if s then 'S' else 'N').toUpper ≤ 'M'),
      offsetVal (matchOptionalOffset (getOffsetStrChars o))⟩, ?_, ?_, ?_⟩
  · rw [Utm.fromStr, hlist, hm]
  · show offsetVal (matchOptionalOffset (getOffsetStrChars o)) = o
    exact offsetVal_reparse hoff
  · show (digitsVal (natDecChars zn) : ℤ) = (zn : ℤ)
    rw [natDecChars_val]

/-! ## Parsed values are decimal values -/

theorem Geocentric.fromStr_decVals_gcc {s : String} {v : Geocentric}
    (h : Geocentric.fromStr s = .ok v) : DecValT v.offset := by
  rw [Geocentric.fromStr] at h
  rcases hm : Geocentric.srepMatch s.toList with _ | off <;> rw [hm] at h
  · simp at h
  · simp only [Except.ok.injEq] at h
    subst h
    exact offsetVal_decValT off

theorem Geodetic.fromStr_decVals_gdc {s : String} {v : Geodetic}
    (h : Geodetic.fromStr s = .ok v) : DecValT v.offset := by
  rw [Geodetic.fromStr] at h
  rcases hm : Geodetic.srepMatch s.toList with _ | off <;> rw [hm] at h
  · simp at h
  · simp only [Except.ok.injEq] at h
    subst h
    exact offsetVal_decValT off

theorem LocalTangentPlane.fromStr_decVals_ltp {s : String} {v : LocalTangentPlane}
    (h : LocalTangentPlane.fromStr s = .ok v) :
    DecVal v.lon ∧ DecVal v.lat ∧ DecVal v.alt ∧ DecValT v.offset := by
  rw [LocalTangentPlane.fromStr] at h
  rcases hm : LocalTangentPlane.srepMatch s.toList with _ | ⟨⟨t1, t2, t3⟩, off⟩ <;>
    rw [hm] at h
  · simp at h
  · simp only [Except.ok.injEq] at h
    subst h
    exact ⟨pyFloat_decVal t1, pyFloat_decVal t2, pyFloat_decVal t3, offsetVal_decValT off⟩

theorem Utm.fromStr_decVals_utm {s : String} {v : Utm}
    (h : Utm.fromStr s = .ok v) : DecValT v.offset := by
  rw [Utm.fromStr] at h
  rcases hm : Utm.srepMatch s.toList with _ | ⟨zcs, hc, off⟩ <;> rw [hm] at h
  · simp at h
  · simp only [Except.ok.injEq] at h
    subst h
    exact offsetVal_decValT off

/-! ## Factory routing of canonical stringifications -/

theorem mk_cons_ne_empty (c : Char) (rest : List Char) :
    String.mk (c :: rest) ≠ "" := by
  intro hc
  have hd : (String.mk (c :: rest)).data = ("" : String).data := by rw [hc]
  simp at hd

theorem factory_gcc_toStr (rest : List Char) :
    CoordinateReferenceSystem.fromStr (String.mk ('G' :: 'C' :: 'C' :: rest))
      = (Geocentric.fromStr (String.mk ('G' :: 'C' :: 'C' :: rest))).map
          fun v => some (.gcc v) := by
  rw [CoordinateReferenceSystem.fromStr]
  rw [if_neg (mk_cons_ne_empty _ _)]
  rw [if_neg (by rw [show startsWithKeywordCI ltpKeywords
    (String.mk ('G' :: 'C' :: 'C' :: rest)).toList = false from rfl]; simp)]
  rw [if_neg (by rw [show startsWithKeywordCI gdcKeywords
    (String.mk ('G' :: 'C' :: 'C' :: rest)).toList = false from rfl]; simp)]
  rw [if_neg (by rw [show startsWithKeywordCI utmKeywords
    (String.mk ('G' :: 'C' :: 'C' :: rest)).toList = false from rfl]; simp)]
  rw [if_pos (show startsWithKeywordCI [['e', 'c', 'e', 'f'], ['g', 'c', 'c']]
    (String.mk ('G' :: 'C' :: 'C' :: rest)).toList = true from rfl)]

theorem factory_gdc_toStr (rest : List Char) :
    CoordinateReferenceSystem.fromStr (String.mk ('G' :: 'D' :: 'C' :: rest))
      = (Geodetic.fromStr (String.mk ('G' :: 'D' :: 'C' :: rest))).map
          fun v => some (.gdc v) := by
  rw [CoordinateReferenceSystem.fromStr]
  rw [if_neg (mk_cons_ne_empty _ _)]
  rw [if_neg (by rw [show startsWithKeywordCI ltpKeywords
    (String.mk ('G' :: 'D' :: 'C' :: rest)).toList = false from rfl]; simp)]
  rw [if_pos (show startsWithKeywordCI gdcKeywords
    (String.mk ('G' :: 'D' :: 'C' :: rest)).toList = true from rfl)]

theorem factory_enu_toStr (rest : List Char) :
    CoordinateReferenceSystem.fromStr (String.mk ('E' :: 'N' :: 'U' :: rest))
      = (LocalTangentPlane.fromStr (String.mk ('E' :: 'N' :: 'U' :: rest))).map
          fun v => some (.ltp v) := by
  rw [CoordinateReferenceSystem.fromStr]
  rw [if_neg (mk_cons_ne_empty _ _)]
  rw [if_pos (show startsWithKeywordCI ltpKeywords
    (String.mk ('E' :: 'N' :: 'U' :: rest)).toList = true from rfl)]

theorem factory_utm_toStr (rest : List Char) :
    CoordinateReferenceSystem.fromStr (String.mk ('U' :: 'T' :: 'M' :: rest))
      = (Utm.fromStr (String.mk ('U' :: 'T' :: 'M' :: rest))).map
          fun v => some (.utm v) := by
  rw [CoordinateReferenceSystem.fromStr]
  rw [if_neg (mk_cons_ne_empty _ _)]
  rw [if_neg (by rw [show startsWithKeywordCI ltpKeywords
    (String.mk ('U' :: 'T' :: 'M' :: rest)).toList = false from rfl]; simp)]
  rw [if_neg (by rw [show startsWithKeywordCI gdcKeywords
    (String.mk ('U' :: 'T' :: 'M' :: rest)).toList = false from rfl]; simp)]
  rw [if_pos (show startsWithKeywordCI utmKeywords
    (String.mk ('U' :: 'T' :: 'M' :: rest)).toList = true from rfl)]

theorem factory_ltp_toStr (v : LocalTangentPlane) :
    CoordinateReferenceSystem.fromStr v.toStr
      = (LocalTangentPlane.fromStr v.toStr).map fun w => some (.ltp w) := by
  obtain ⟨lon, lat, alt, o⟩ := v
  exact factory_enu_toStr _

theorem factory_gcc_toStr2 (v : Geocentric) :
    CoordinateReferenceSystem.fromStr v.toStr
      = (Geocentric.fromStr v.toStr).map fun w => some (.gcc w) := by
  obtain ⟨o⟩ := v
  exact factory_gcc_toStr _

theorem factory_gdc_toStr2 (v : Geodetic) :
    CoordinateReferenceSystem.fromStr v.toStr
      = (Geodetic.fromStr v.toStr).map fun w => some (.gdc w) := by
  obtain ⟨o⟩ := v
  exact factory_gdc_toStr _

theorem factory_utm_toStr2 (v : Utm) :
    CoordinateReferenceSystem.fromStr v.toStr
      = (Utm.fromStr v.toStr).map fun w => some (.utm w) := by
  obtain ⟨z, s, o⟩ := v
  exact factory_utm_toStr _

/-! ## C7 -/

theorem pyFloatChars_eval {q : ℚ} {k : ℕ} {m : ℤ}
    (hk : decExp q = k) (hm : (q * 10 ^ k).num = m) :
    pyFloatChars q = (if q < 0 then ['-'] else []) ++ natDecChars (m.natAbs / 10 ^ k)
      ++ '.' :: (if k = 0 then ['0'] else padZeros k (natDecChars (m.natAbs % 10 ^ k))) := by
  rw [pyFloatChars, hk, hm]

theorem pyFloatChars_neg77p5 : pyFloatChars (-77.5 : ℚ) = ['-', '7', '7', '.', '5'] := by
  have he : (-77.5 : ℚ) = -155 / 2 := by norm_num
  have hden : (-77.5 : ℚ).den = 2 := by rw [he]; norm_num
  have hk : decExp (-77.5 : ℚ) = 1 := by
    rw [decExp, hden]
    rw [decExpAux, if_neg (by rw [he]; norm_num)]
    rw [decExpAux, if_pos (by rw [he]; norm_num)]
  have hm : ((-77.5 : ℚ) * 10 ^ 1).num = -775 := by rw [he]; norm_num
  rw [pyFloatChars_eval hk hm, if_pos (by norm_num : (-77.5 : ℚ) < 0)]
  decide

theorem pyFloatChars_38p9 : pyFloatChars (38.9 : ℚ) = ['3', '8', '.', '9'] := by
  have he : (38.9 : ℚ) = 389 / 10 := by norm_num
  have hden : (38.9 : ℚ).den = 10 := by rw [he]; norm_num
  have hk : decExp (38.9 : ℚ) = 1 := by
    rw [decExp, hden]
    rw [decExpAux, if_neg (by rw [he]; norm_num)]
    rw [decExpAux, if_pos (by rw [he]; norm_num)]
  have hm : ((38.9 : ℚ) * 10 ^ 1).num = 389 := by rw [he]; norm_num
  rw [pyFloatChars_eval hk hm, if_neg (by norm_num : ¬((38.9 : ℚ) < 0))]
  decide

theorem pyFloatChars_100 : pyFloatChars (100 : ℚ) = ['1', '0', '0', '.', '0'] := by
  have hden : (100 : ℚ).den = 1 := by norm_num
  have hk : decExp (100 : ℚ) = 0 := by
    rw [decExp, hden]
    rw [decExpAux, if_pos (by norm_num)]
  have hm : ((100 : ℚ) * 10 ^ 0).num = 100 := by norm_num
  rw [pyFloatChars_eval hk hm, if_neg (by norm_num : ¬((100 : ℚ) < 0))]
  decide

theorem ltp_enu_example_parse :
    LocalTangentPlane.fromStr "ENU -77.5 38.9 100"
      = .ok { lon := -77.5, lat := 38.9, alt := 100, offset := (0, 0, 0) } := by
  have hm : LocalTangentPlane.srepMatch "ENU -77.5 38.9 100".toList
      = some ((['-', '7', '7', '.', '5'], ['3', '8', '.', '9'], ['1', '0', '0']), none) := by
    decide
  rw [LocalTangentPlane.fromStr, hm]
  simp only [Except.ok.injEq, LocalTangentPlane.mk.injEq, offsetVal]
  refine ⟨?_, ?_, ?_, trivial⟩
  · have h1 : splitSign ['-', '7', '7', '.', '5'] = (true, ['7', '7', '.', '5']) := by decide
    have h2 : spanDigits ['7', '7', '.', '5'] = (['7', '7'], ['.', '5']) := by decide
    have h3 : splitFrac ['.', '5'] = (['5'], ([] : List Char)) := by decide
    rw [pyFloat_eval h1 h2 h3]
    rw [show digitsVal (['7', '7'] ++ ['5']) = 775 from by decide]
    norm_num [expValOf]
  · have h1 : splitSign ['3', '8', '.', '9'] = (false, ['3', '8', '.', '9']) := by decide
    have h2 : spanDigits ['3', '8', '.', '9'] = (['3', '8'], ['.', '9']) := by decide
    have h3 : splitFrac ['.', '9'] = (['9'], ([] : List Char)) := by decide
    rw [pyFloat_eval h1 h2 h3]
    rw [show digitsVal (['3', '8'] ++ ['9']) = 389 from by decide]
    norm_num [expValOf]
  · exact pyFloat_intTok (by decide) (by decide) (by decide)

theorem ltp_enu_example_toStr :
    LocalTangentPlane.toStr { lon := -77.5, lat := 38.9, alt := 100, offset := (0, 0, 0) }
      = "ENU -77.5 38.9 100.0" := by
  have hoff : getOffsetStrChars ((0 : ℚ), (0 : ℚ), (0 : ℚ)) = [] := by
    rw [getOffsetStrChars, if_neg (by simp)]
  show String.mk ('E' :: 'N' :: 'U' :: ' ' :: (pyFloatChars (-77.5 : ℚ)
    ++ ' ' :: (pyFloatChars (38.9 : ℚ)
      ++ ' ' :: (pyFloatChars (100 : ℚ) ++ getOffsetStrChars (0, 0, 0))))) = _
  rw [pyFloatChars_neg77p5, pyFloatChars_38p9, pyFloatChars_100, hoff]
  decide

/-- C7 counterexample: parsing `"ENU -77.5 38.9 100"` yields the stated
origin with zero offset, but its stringification is not `"ENU -77.5 38.9 100"`
(Python `str(100.0)` prints `'100.0'`). -/
theorem ltp_stringify_counterexample :
    LocalTangentPlane.fromStr "ENU -77.5 38.9 100"
      = .ok { lon := -77.5, lat := 38.9, alt := 100, offset := (0, 0, 0) }
    ∧ LocalTangentPlane.toStr { lon := -77.5, lat := 38.9, alt := 100, offset := (0, 0, 0) }
      ≠ "ENU -77.5 38.9 100" := by
  refine ⟨ltp_enu_example_parse, ?_⟩
  rw [ltp_enu_example_toStr]
  decide

/-- C7 (amended): parsing `"ENU -77.5 38.9 100"` yields a LocalTangentPlane
with longitude -77.5, latitude 38.9, altitude 100 and zero offset, and its
stringification is exactly `"ENU -77.5 38.9 100.0"` (floats keep a
fractional part when printed). -/
theorem ltp_stringify_amended :
    LocalTangentPlane.fromStr "ENU -77.5 38.9 100"
      = .ok { lon := -77.5, lat := 38.9, alt := 100, offset := (0, 0, 0) }
    ∧ LocalTangentPlane.toStr { lon := -77.5, lat := 38.9, alt := 100, offset := (0, 0, 0) }
      = "ENU -77.5 38.9 100.0" :=
  ⟨ltp_enu_example_parse, ltp_enu_example_toStr⟩

/-! ## C6: bridging the exact and the saturating model -/

theorem toPyF_small {q : ℚ} (h : |q| < OVERFLOW_BOUND) : toPyF q = .fin q := by
  rw [toPyF, if_neg (not_le.mpr h)]

theorem toPyF_zero : toPyF 0 = .fin 0 := by
  refine toPyF_small ?_
  rw [OVERFLOW_BOUND, abs_zero]
  norm_num

theorem toPyF_one : toPyF (1 : ℚ) = .fin 1 :=
  toPyF_small (by rw [OVERFLOW_BOUND, abs_of_nonneg (by norm_num)]; norm_num)

theorem toPyF_two : toPyF (2 : ℚ) = .fin 2 :=
  toPyF_small (by rw [OVERFLOW_BOUND, abs_of_nonneg (by norm_num)]; norm_num)

theorem toPyF_three : toPyF (3 : ℚ) = .fin 3 :=
  toPyF_small (by rw [OVERFLOW_BOUND, abs_of_nonneg (by norm_num)]; norm_num)

theorem toPyF_isFin {q : ℚ} (h : (toPyF q).isFin = true) : toPyF q = .fin q := by
  rw [toPyF] at h ⊢
  split_ifs at h ⊢ with hb
  · simp [PyF.isFin] at h
  · rfl

theorem offsetValF_eq (off : Option (List Char × List Char × List Char)) :
    offsetValF off = toPyF3 (offsetVal off) := by
  cases off with
  | none =>
    show ((.fin 0, .fin 0, .fin 0) : PyF × PyF × PyF) = (toPyF 0, toPyF 0, toPyF 0)
    rw [toPyF_zero]
  | some c =>
    obtain ⟨a, b, c⟩ := c
    rfl

theorem GeocentricF.fromStr_eq_gcc (s : String) :
    GeocentricF.fromStr s
      = (Geocentric.fromStr s).map fun v => { offset := toPyF3 v.offset } := by
  rw [GeocentricF.fromStr, Geocentric.fromStr]
  rcases hm : Geocentric.srepMatch s.toList with _ | off
  · rfl
  · simp only [Except.map, offsetValF_eq]

theorem GeodeticF.fromStr_eq_gdc (s : String) :
    GeodeticF.fromStr s
      = (Geodetic.fromStr s).map fun v => { offset := toPyF3 v.offset } := by
  rw [GeodeticF.fromStr, Geodetic.fromStr]
  rcases hm : Geodetic.srepMatch s.toList with _ | off
  · rfl
  · simp only [Except.map, offsetValF_eq]

theorem LocalTangentPlaneF.fromStr_eq_ltp (s : String) :
    LocalTangentPlaneF.fromStr s
      = (LocalTangentPlane.fromStr s).map fun v =>
          { lon := toPyF v.lon, lat := toPyF v.lat, alt := toPyF v.alt,
            offset := toPyF3 v.offset } := by
  rw [LocalTangentPlaneF.fromStr, LocalTangentPlane.fromStr]
  rcases hm : LocalTangentPlane.srepMatch s.toList with _ | ⟨⟨t1, t2, t3⟩, off⟩
  · rfl
  · simp only [Except.map, offsetValF_eq]

theorem UtmF.fromStr_eq_utm (s : String) :
    UtmF.fromStr s
      = (Utm.fromStr s).map fun v =>
          { zone := v.zone, south := v.south, offset := toPyF3 v.offset } := by
  rw [UtmF.fromStr, Utm.fromStr]
  rcases hm : Utm.srepMatch s.toList with _ | ⟨zcs, hc, off⟩
  · rfl
  · simp only [Except.map, offsetValF_eq]

theorem finTriple_eq_zero_iff (a b c : ℚ) :
    ((PyF.fin a, PyF.fin b, PyF.fin c) : PyF × PyF × PyF) = (.fin 0, .fin 0, .fin 0)
      ↔ ((a, b, c) : ℚ × ℚ × ℚ) = (0, 0, 0) := by
  simp [Prod.ext_iff]

theorem getOffsetStrF_fin (a b c : ℚ) :
    getOffsetStrFChars (.fin a, .fin b, .fin c) = getOffsetStrChars (a, b, c) := by
  rw [getOffsetStrFChars, getOffsetStrChars]
  by_cases h : ((a, b, c) : ℚ × ℚ × ℚ) = (0, 0, 0)
  · have hF : ((PyF.fin a, PyF.fin b, PyF.fin c) : PyF × PyF × PyF)
        = (.fin 0, .fin 0, .fin 0) := (finTriple_eq_zero_iff a b c).mpr h
    rw [if_neg (not_not.mpr hF), if_neg (not_not.mpr h)]
  · have hF : ((PyF.fin a, PyF.fin b, PyF.fin c) : PyF × PyF × PyF)
        ≠ (.fin 0, .fin 0, .fin 0) := fun hc => h ((finTriple_eq_zero_iff a b c).mp hc)
    rw [if_pos hF, if_pos h]
    rfl

theorem GeocentricF.toStr_fin_gcc (a b c : ℚ) :
    GeocentricF.toStr { offset := (.fin a, .fin b, .fin c) }
      = Geocentric.toStr { offset := (a, b, c) } := by
  show String.mk ('G' :: 'C' :: 'C' :: getOffsetStrFChars (.fin a, .fin b, .fin c))
    = String.mk ('G' :: 'C' :: 'C' :: getOffsetStrChars (a, b, c))
  rw [getOffsetStrF_fin]

theorem GeodeticF.toStr_fin_gdc (a b c : ℚ) :
    GeodeticF.toStr { offset := (.fin a, .fin b, .fin c) }
      = Geodetic.toStr { offset := (a, b, c) } := by
  show String.mk ('G' :: 'D' :: 'C' :: getOffsetStrFChars (.fin a, .fin b, .fin c))
    = String.mk ('G' :: 'D' :: 'C' :: getOffsetStrChars (a, b, c))
  rw [getOffsetStrF_fin]

theorem LocalTangentPlaneF.toStr_fin_ltp (lon lat alt a b c : ℚ) :
    LocalTangentPlaneF.toStr
      { lon := .fin lon, lat := .fin lat, alt := .fin alt,
        offset := (.fin a, .fin b, .fin c) }
      = LocalTangentPlane.toStr
        { lon := lon, lat := lat, alt := alt, offset := (a, b, c) } := by
  show String.mk ('E' :: 'N' :: 'U' :: ' ' :: (PyF.strChars (.fin lon)
      ++ ' ' :: (PyF.strChars (.fin lat) ++ ' ' :: (PyF.strChars (.fin alt)
        ++ getOffsetStrFChars (.fin a, .fin b, .fin c)))))
    = String.mk ('E' :: 'N' :: 'U' :: ' ' :: (pyFloatChars lon
      ++ ' ' :: (pyFloatChars lat ++ ' ' :: (pyFloatChars alt
        ++ getOffsetStrChars (a, b, c)))))
  rw [getOffsetStrF_fin]
  rfl

theorem UtmF.toStr_fin_utm (z : ℤ) (sf : Bool) (a b c : ℚ) :
    UtmF.toStr { zone := z, south := sf, offset := (.fin a, .fin b, .fin c) }
      = Utm.toStr { zone := z, south := sf, offset := (a, b, c) } := by
  show String.mk ('U' :: 'T' :: 'M' :: ' ' :: (intDecChars z
      ++ (if sf then 'S' else 'N') :: getOffsetStrFChars (.fin a, .fin b, .fin c)))
    = String.mk ('U' :: 'T' :: 'M' :: ' ' :: (intDecChars z
      ++ (if sf then 'S' else 'N') :: getOffsetStrChars (a, b, c)))
  rw [getOffsetStrF_fin]

theorem factoryF_gcc_toStr (rest : List Char) :
    CoordinateReferenceSystemF.fromStr (String.mk ('G' :: 'C' :: 'C' :: rest))
      = (GeocentricF.fromStr (String.mk ('G' :: 'C' :: 'C' :: rest))).map
          fun v => some (.gcc v) := by
  rw [CoordinateReferenceSystemF.fromStr]
  rw [if_neg (mk_cons_ne_empty _ _)]
  rw [if_neg (by rw [show startsWithKeywordCI ltpKeywords
    (String.mk ('G' :: 'C' :: 'C' :: rest)).toList = false from rfl]; simp)]
  rw [if_neg (by rw [show startsWithKeywordCI gdcKeywords
    (String.mk ('G' :: 'C' :: 'C' :: rest)).toList = false from rfl]; simp)]
  rw [if_neg (by rw [show startsWithKeywordCI utmKeywords
    (String.mk ('G' :: 'C' :: 'C' :: rest)).toList = false from rfl]; simp)]
  rw [if_pos (show startsWithKeywordCI [['e', 'c', 'e', 'f'], ['g', 'c', 'c']]
    (String.mk ('G' :: 'C' :: 'C' :: rest)).toList = true from rfl)]

theorem factoryF_gdc_toStr (rest : List Char) :
    CoordinateReferenceSystemF.fromStr (String.mk ('G' :: 'D' :: 'C' :: rest))
      = (GeodeticF.fromStr (String.mk ('G' :: 'D' :: 'C' :: rest))).map
          fun v => some (.gdc v) := by
  rw [CoordinateReferenceSystemF.fromStr]
  rw [if_neg (mk_cons_ne_empty _ _)]
  rw [if_neg (by rw [show startsWithKeywordCI ltpKeywords
    (String.mk ('G' :: 'D' :: 'C' :: rest)).toList = false from rfl]; simp)]
  rw [if_pos (show startsWithKeywordCI gdcKeywords
    (String.mk ('G' :: 'D' :: 'C' :: rest)).toList = true from rfl)]

theorem factoryF_enu_toStr (rest : List Char) :
    CoordinateReferenceSystemF.fromStr (String.mk ('E' :: 'N' :: 'U' :: rest))
      = (LocalTangentPlaneF.fromStr (String.mk ('E' :: 'N' :: 'U' :: rest))).map
          fun v => some (.ltp v) := by
  rw [CoordinateReferenceSystemF.fromStr]
  rw [if_neg (mk_cons_ne_empty _ _)]
  rw [if_pos (show startsWithKeywordCI ltpKeywords
    (String.mk ('E' :: 'N' :: 'U' :: rest)).toList = true from rfl)]

theorem factoryF_utm_toStr (rest : List Char) :
    CoordinateReferenceSystemF.fromStr (String.mk ('U' :: 'T' :: 'M' :: rest))
      = (UtmF.fromStr (String.mk ('U' :: 'T' :: 'M' :: rest))).map
          fun v => some (.utm v) := by
  rw [CoordinateReferenceSystemF.fromStr]
  rw [if_neg (mk_cons_ne_empty _ _)]
  rw [if_neg (by rw [show startsWithKeywordCI ltpKeywords
    (String.mk ('U' :: 'T' :: 'M' :: rest)).toList = false from rfl]; simp)]
  rw [if_neg (by rw [show startsWithKeywordCI gdcKeywords
    (String.mk ('U' :: 'T' :: 'M' :: rest)).toList = false from rfl]; simp)]
  rw [if_pos (show startsWithKeywordCI utmKeywords
    (String.mk ('U' :: 'T' :: 'M' :: rest)).toList = true from rfl)]

/-! ## C6: the overflow counterexample -/

theorem pyFloat_char_one : pyFloat ['1'] = (1 : ℚ) := by
  have ha1 : splitSign ['1'] = (false, ['1']) := by decide
  have ha2 : spanDigits ['1'] = (['1'], ([] : List Char)) := by decide
  have ha3 : digitsVal ['1'] = 1 := by decide
  rw [pyFloat_intTok ha1 ha2 ha3]
  norm_num

theorem pyFloat_char_two : pyFloat ['2'] = (2 : ℚ) := by
  have ha1 : splitSign ['2'] = (false, ['2']) := by decide
  have ha2 : spanDigits ['2'] = (['2'], ([] : List Char)) := by decide
  have ha3 : digitsVal ['2'] = 2 := by decide
  rw [pyFloat_intTok ha1 ha2 ha3]
  norm_num

theorem pyFloat_1e999 : pyFloat ['1', 'e', '9', '9', '9'] = (10 : ℚ) ^ 999 := by
  have h1 : splitSign ['1', 'e', '9', '9', '9'] = (false, ['1', 'e', '9', '9', '9']) := by
    decide
  have h2 : spanDigits ['1', 'e', '9', '9', '9'] = (['1'], ['e', '9', '9', '9']) := by decide
  have h3 : splitFrac ['e', '9', '9', '9'] = (([] : List Char), ['e', '9', '9', '9']) := by
    decide
  rw [pyFloat_eval h1 h2 h3]
  rw [show expValOf ['e', '9', '9', '9'] = 999 from by decide]
  rw [show digitsVal (['1'] ++ []) = 1 from by decide]
  norm_num

theorem toPyF_1e999 : toPyF ((10 : ℚ) ^ 999) = .inf false := by
  have hb : OVERFLOW_BOUND ≤ |(10 : ℚ) ^ 999| := by
    rw [OVERFLOW_BOUND, abs_of_nonneg (by positivity)]
    norm_num
  rw [toPyF, if_pos hb, decide_eq_false (not_lt.mpr (by positivity))]

theorem gcc_1e999_parse :
    GeocentricF.fromStr "GCC 1e999 1 2"
      = .ok { offset := (.inf false, .fin 1, .fin 2) } := by
  have hm : Geocentric.srepMatch "GCC 1e999 1 2".toList
      = some (some (['1', 'e', '9', '9', '9'], ['1'], ['2'])) := by decide
  rw [GeocentricF.fromStr, hm]
  show (Except.ok { offset := (toPyF (pyFloat ['1', 'e', '9', '9', '9']),
      toPyF (pyFloat ['1']), toPyF (pyFloat ['2'])) } : Except PyErr GeocentricF) = _
  rw [pyFloat_1e999, pyFloat_char_one, pyFloat_char_two, toPyF_1e999, toPyF_one, toPyF_two]

theorem pyFloatChars_one : pyFloatChars (1 : ℚ) = ['1', '.', '0'] := by
  have hden : (1 : ℚ).den = 1 := by norm_num
  have hk : decExp (1 : ℚ) = 0 := by
    rw [decExp, hden]
    rw [decExpAux, if_pos (by norm_num)]
  have hm : ((1 : ℚ) * 10 ^ 0).num = 1 := by norm_num
  rw [pyFloatChars_eval hk hm, if_neg (by norm_num : ¬((1 : ℚ) < 0))]
  decide

theorem pyFloatChars_two : pyFloatChars (2 : ℚ) = ['2', '.', '0'] := by
  have hden : (2 : ℚ).den = 1 := by norm_num
  have hk : decExp (2 : ℚ) = 0 := by
    rw [decExp, hden]
    rw [decExpAux, if_pos (by norm_num)]
  have hm : ((2 : ℚ) * 10 ^ 0).num = 2 := by norm_num
  rw [pyFloatChars_eval hk hm, if_neg (by norm_num : ¬((2 : ℚ) < 0))]
  decide

theorem gcc_inf_toStr :
    GeocentricF.toStr { offset := (.inf false, .fin 1, .fin 2) } = "GCC inf 1.0 2.0" := by
  have hne : ((PyF.inf false, PyF.fin 1, PyF.fin 2) : PyF × PyF × PyF)
      ≠ (.fin 0, .fin 0, .fin 0) := by
    simp [Prod.ext_iff]
  show String.mk ('G' :: 'C' :: 'C'
      :: getOffsetStrFChars (.inf false, .fin 1, .fin 2)) = _
  rw [getOffsetStrFChars, if_pos hne]
  show String.mk ('G' :: 'C' :: 'C' :: ' ' :: (['i', 'n', 'f']
      ++ ' ' :: (pyFloatChars 1 ++ ' ' :: pyFloatChars 2))) = _
  rw [pyFloatChars_one, pyFloatChars_two]
  decide

theorem gcc_inf_reparse :
    GeocentricF.fromStr "GCC inf 1.0 2.0" = .ok { offset := (.fin 0, .fin 0, .fin 0) } := by
  have hm : Geocentric.srepMatch "GCC inf 1.0 2.0".toList = some none := by decide
  rw [GeocentricF.fromStr, hm]
  rfl

/-- C6 counterexample (refuting the round-trip claim): the factory accepts
`GCC 1e999 1 2`, whose first offset token overflows to the infinity `inf`, so
the parsed offset is not the zero triple; the stringification spells that
component `inf`, the factory accepts the stringification again, but the
decimal grammar does not match `inf`, so the reparse silently returns the
zero offset: the three offset components are not preserved. -/
theorem crs_overflow_counterexample :
    ∃ c : CrsF, CoordinateReferenceSystemF.fromStr "GCC 1e999 1 2" = .ok (some c)
      ∧ c.offsetF = .ok (.inf false, .fin 1, .fin 2)
      ∧ c.toStr = "GCC inf 1.0 2.0"
      ∧ ∃ c2 : CrsF,
          CoordinateReferenceSystemF.fromStr c.toStr = .ok (some c2)
          ∧ c2.offsetF = .ok (.fin 0, .fin 0, .fin 0)
          ∧ ∀ off, c.offsetF = .ok off →
              off ≠ (.fin 0, .fin 0, .fin 0) ∧ c2.offsetF ≠ .ok off := by
  refine ⟨.gcc { offset := (.inf false, .fin 1, .fin 2) }, ?_, rfl, gcc_inf_toStr,
    .gcc { offset := (.fin 0, .fin 0, .fin 0) }, ?_, rfl, ?_⟩
  · have hstr : ("GCC 1e999 1 2" : String)
        = String.mk ('G' :: 'C' :: 'C' :: " 1e999 1 2".toList) := by decide
    rw [hstr, factoryF_gcc_toStr, ← hstr, gcc_1e999_parse]
    rfl
  · rw [show CrsF.toStr (.gcc { offset := (.inf false, .fin 1, .fin 2) })
        = "GCC inf 1.0 2.0" from gcc_inf_toStr]
    have hstr : ("GCC inf 1.0 2.0" : String)
        = String.mk ('G' :: 'C' :: 'C' :: " inf 1.0 2.0".toList) := by decide
    rw [hstr, factoryF_gcc_toStr, ← hstr, gcc_inf_reparse]
    rfl
  · intro off hoff
    have h1 : (.inf false, .fin 1, .fin 2) = off := by
      simp only [CrsF.offsetF, Except.ok.injEq] at hoff
      exact hoff
    subst h1
    constructor
    · simp [Prod.ext_iff]
    · simp [CrsF.offsetF, Prod.ext_iff]

/-! ## C6: the finite round trip -/

/-- C6 (amended): in the saturating-float model, a factory-parsed CRS whose
float fields are all finite (no conversion overflowed) stringifies to a form
the factory accepts again, and for a non-zero offset the reparsed CRS carries
exactly the same three offset components.  The counterexample above shows the
finiteness hypothesis is necessary: an overflowed offset component prints as
`inf` and silently reparses to zero. -/
theorem crs_roundtrip_finite :
    ∀ (s : String) (c : CrsF), CoordinateReferenceSystemF.fromStr s = .ok (some c) →
      c.finiteFloats = true →
      ∃ c2 : CrsF, CoordinateReferenceSystemF.fromStr c.toStr = .ok (some c2)
        ∧ (∀ off, c.offsetF = .ok off → off ≠ (.fin 0, .fin 0, .fin 0) →
            c2.offsetF = .ok off) := by
  intro s c hs hfin
  rw [CoordinateReferenceSystemF.fromStr] at hs
  split_ifs at hs with h0 h1 h2 h3 h4
  · rw [LocalTangentPlaneF.fromStr_eq_ltp] at hs
    rcases hv : LocalTangentPlane.fromStr s with e | w <;> rw [hv] at hs
    · simp [Except.map] at hs
    simp only [Except.map, Except.ok.injEq, Option.some.injEq] at hs
    obtain ⟨lon, lat, alt, ⟨w1, w2, w3⟩⟩ := w
    subst hs
    simp only [CrsF.finiteFloats, toPyF3, Bool.and_eq_true] at hfin
    obtain ⟨⟨⟨⟨⟨hflon, hflat⟩, hfalt⟩, hf1⟩, hf2⟩, hf3⟩ := hfin
    have hwlon := toPyF_isFin hflon
    have hwlat := toPyF_isFin hflat
    have hwalt := toPyF_isFin hfalt
    have hw1 := toPyF_isFin hf1
    have hw2 := toPyF_isFin hf2
    have hw3 := toPyF_isFin hf3
    obtain ⟨hdlon, hdlat, hdalt, hdoff⟩ := LocalTangentPlane.fromStr_decVals_ltp hv
    have hre := LocalTangentPlane.reparse_ltp hdlon hdlat hdalt hdoff
    have hts : CrsF.toStr (.ltp
          { lon := toPyF lon, lat := toPyF lat, alt := toPyF alt,
            offset := toPyF3 (w1, w2, w3) })
        = LocalTangentPlane.toStr
          { lon := lon, lat := lat, alt := alt, offset := (w1, w2, w3) } := by
      show LocalTangentPlaneF.toStr
          { lon := toPyF lon, lat := toPyF lat, alt := toPyF alt,
            offset := (toPyF w1, toPyF w2, toPyF w3) } = _
      rw [hwlon, hwlat, hwalt, hw1, hw2, hw3]
      exact LocalTangentPlaneF.toStr_fin_ltp lon lat alt w1 w2 w3
    refine ⟨.ltp
      { lon := toPyF lon, lat := toPyF lat, alt := toPyF alt,
        offset := toPyF3 (w1, w2, w3) }, ?_, ?_⟩
    · rw [hts]
      have hlist : LocalTangentPlane.toStr
          { lon := lon, lat := lat, alt := alt, offset := (w1, w2, w3) }
          = String.mk ('E' :: 'N' :: 'U' :: ' ' :: (pyFloatChars lon ++ ' ' ::
              (pyFloatChars lat ++ ' ' :: (pyFloatChars alt
                ++ getOffsetStrChars (w1, w2, w3))))) := rfl
      rw [hlist, factoryF_enu_toStr, ← hlist, LocalTangentPlaneF.fromStr_eq_ltp, hre]
      rfl
    · intro off hoff hne
      exact hoff
  · rw [GeodeticF.fromStr_eq_gdc] at hs
    rcases hv : Geodetic.fromStr s with e | w <;> rw [hv] at hs
    · simp [Except.map] at hs
    simp only [Except.map, Except.ok.injEq, Option.some.injEq] at hs
    obtain ⟨⟨w1, w2, w3⟩⟩ := w
    subst hs
    simp only [CrsF.finiteFloats, toPyF3, Bool.and_eq_true] at hfin
    obtain ⟨⟨hf1, hf2⟩, hf3⟩ := hfin
    have hw1 := toPyF_isFin hf1
    have hw2 := toPyF_isFin hf2
    have hw3 := toPyF_isFin hf3
    have hre := Geodetic.reparse_gdc (Geodetic.fromStr_decVals_gdc hv)
    have hts : CrsF.toStr (.gdc { offset := toPyF3 (w1, w2, w3) })
        = Geodetic.toStr { offset := (w1, w2, w3) } := by
      show GeodeticF.toStr { offset := (toPyF w1, toPyF w2, toPyF w3) } = _
      rw [hw1, hw2, hw3]
      exact GeodeticF.toStr_fin_gdc w1 w2 w3
    refine ⟨.gdc { offset := toPyF3 (w1, w2, w3) }, ?_, ?_⟩
    · rw [hts]
      have hlist : Geodetic.toStr { offset := (w1, w2, w3) }
          = String.mk ('G' :: 'D' :: 'C' :: getOffsetStrChars (w1, w2, w3)) := rfl
      rw [hlist, factoryF_gdc_toStr, ← hlist, GeodeticF.fromStr_eq_gdc, hre]
      rfl
    · intro off hoff hne
      exact hoff
  · rw [UtmF.fromStr_eq_utm] at hs
    rcases hv : Utm.fromStr s with e | w <;> rw [hv] at hs
    · simp [Except.map] at hs
    simp only [Except.map, Except.ok.injEq, Option.some.injEq] at hs
    obtain ⟨z, sb, ⟨w1, w2, w3⟩⟩ := w
    subst hs
    simp only [CrsF.finiteFloats, toPyF3, Bool.and_eq_true] at hfin
    obtain ⟨⟨hf1, hf2⟩, hf3⟩ := hfin
    have hw1 := toPyF_isFin hf1
    have hw2 := toPyF_isFin hf2
    have hw3 := toPyF_isFin hf3
    obtain ⟨v2, hre, hoffeq, hzeq⟩ :=
      Utm.reparse_utm (utm_fromStr_zone_aux s _ hv).1 (utm_fromStr_zone_aux s _ hv).2
        (Utm.fromStr_decVals_utm hv)
    have hts : CrsF.toStr (.utm { zone := z, south := sb, offset := toPyF3 (w1, w2, w3) })
        = Utm.toStr { zone := z, south := sb, offset := (w1, w2, w3) } := by
      show UtmF.toStr
          { zone := z, south := sb, offset := (toPyF w1, toPyF w2, toPyF w3) } = _
      rw [hw1, hw2, hw3]
      exact UtmF.toStr_fin_utm z sb w1 w2 w3
    refine ⟨.utm { zone := v2.zone, south := v2.south, offset := toPyF3 v2.offset },
      ?_, ?_⟩
    · rw [hts]
      have hlist : Utm.toStr { zone := z, south := sb, offset := (w1, w2, w3) }
          = String.mk ('U' :: 'T' :: 'M' :: ' ' :: (intDecChars z
              ++ (if sb then 'S' else 'N') :: getOffsetStrChars (w1, w2, w3))) := rfl
      rw [hlist, factoryF_utm_toStr, ← hlist, UtmF.fromStr_eq_utm, hre]
      rfl
    · intro off hoff hne
      simp only [CrsF.offsetF, Except.ok.injEq] at hoff ⊢
      rw [← hoff, hoffeq]
  · rw [GeocentricF.fromStr_eq_gcc] at hs
    rcases hv : Geocentric.fromStr s with e | w <;> rw [hv] at hs
    · simp [Except.map] at hs
    simp only [Except.map, Except.ok.injEq, Option.some.injEq] at hs
    obtain ⟨⟨w1, w2, w3⟩⟩ := w
    subst hs
    simp only [CrsF.finiteFloats, toPyF3, Bool.and_eq_true] at hfin
    obtain ⟨⟨hf1, hf2⟩, hf3⟩ := hfin
    have hw1 := toPyF_isFin hf1
    have hw2 := toPyF_isFin hf2
    have hw3 := toPyF_isFin hf3
    have hre := Geocentric.reparse_gcc (Geocentric.fromStr_decVals_gcc hv)
    have hts : CrsF.toStr (.gcc { offset := toPyF3 (w1, w2, w3) })
        = Geocentric.toStr { offset := (w1, w2, w3) } := by
      show GeocentricF.toStr { offset := (toPyF w1, toPyF w2, toPyF w3) } = _
      rw [hw1, hw2, hw3]
      exact GeocentricF.toStr_fin_gcc w1 w2 w3
    refine ⟨.gcc { offset := toPyF3 (w1, w2, w3) }, ?_, ?_⟩
    · rw [hts]
      have hlist : Geocentric.toStr { offset := (w1, w2, w3) }
          = String.mk ('G' :: 'C' :: 'C' :: getOffsetStrChars (w1, w2, w3)) := rfl
      rw [hlist, factoryF_gcc_toStr, ← hlist, GeocentricF.fromStr_eq_gcc, hre]
      rfl
    · intro off hoff hne
      exact hoff
  · simp at hs

theorem crs_roundtrip_finite_witness :
    ∃ c2 : CrsF,
      CoordinateReferenceSystemF.fromStr
          (CrsF.toStr (.gcc { offset := (.fin 1, .fin 2, .fin 3) })) = .ok (some c2)
        ∧ (∀ off, CrsF.offsetF (.gcc { offset := (.fin 1, .fin 2, .fin 3) }) = .ok off →
            off ≠ (.fin 0, .fin 0, .fin 0) → c2.offsetF = .ok off) := by
  refine crs_roundtrip_finite "GCC 1 2 3"
    (.gcc { offset := (.fin 1, .fin 2, .fin 3) }) ?_ rfl
  have hm : Geocentric.srepMatch "GCC 1 2 3".toList
      = some (some (['1'], ['2'], ['3'])) := by decide
  have hv : Geocentric.fromStr "GCC 1 2 3" = .ok { offset := (1, 2, 3) } := by
    rw [Geocentric.fromStr, hm]
    simp only [Except.ok.injEq, Geocentric.mk.injEq, offsetVal, Prod.mk.injEq]
    exact ⟨pyFloat_intTok (by decide) (by decide) (by decide),
      pyFloat_intTok (by decide) (by decide) (by decide),
      pyFloat_intTok (by decide) (by decide) (by decide)⟩
  have hstr : ("GCC 1 2 3" : String)
      = String.mk ('G' :: 'C' :: 'C' :: " 1 2 3".toList) := by decide
  rw [hstr, factoryF_gcc_toStr, ← hstr, GeocentricF.fromStr_eq_gcc, hv]
  show Except.ok (some (CrsF.gcc { offset := (toPyF 1, toPyF 2, toPyF 3) })) = _
  rw [toPyF_one, toPyF_two, toPyF_three]
